import Mathlib

/-!
Verification of the room state machine and question-selection policy of the
NCERT Timer Study server (`server.js`).

The shallow embedding models:
* question records and the JSON-like payload objects the server emits,
* the question-selection pipeline `selectQuestions` (AI tier, static bank
  tier, synthetic fallback tier) with the ambient effects (RNG shuffle,
  generated-question stream, AI provider, diagram file existence) supplied
  as explicit oracles in an `Env`,
* the per-room socket event handlers (`joinRoom`, `startGame`, `playerDone`,
  `hostRevealAnswer`, `hostNext`, `disconnect`) as a step function
  `Room → Event → Option Room × List Broadcast` (`none` = room deleted),
* `createRoom` and the unknown-room dispatch.
-/

namespace NcertQuiz

abbrev ConnId := String

/-- JSON-like values, modelling the payload objects emitted over the socket
layer.  Object literals in `server.js` become `JVal.obj` with the same keys
in the same order. -/
inductive JVal where
  | null : JVal
  | bool : Bool → JVal
  | num : Int → JVal
  | str : String → JVal
  | arr : List JVal → JVal
  | obj : List (String × JVal) → JVal

mutual

/-- Does `k` occur anywhere, at any nesting depth, as an object key of `v`? -/
def hasKey (k : String) : JVal → Bool
  | .obj kvs => hasKeyObj k kvs
  | .arr xs => hasKeyArr k xs
  | _ => false

def hasKeyArr (k : String) : List JVal → Bool
  | [] => false
  | x :: xs => hasKey k x || hasKeyArr k xs

def hasKeyObj (k : String) : List (String × JVal) → Bool
  | [] => false
  | (k2, v) :: xs => k2 == k || hasKey k v || hasKeyObj k xs

end

/-- A question record, as stored in `QUESTION_BANK` or produced by the
generators.  Only the fields the server reads are modelled. -/
structure Question where
  id : String
  grade : Int := 0
  subject : String := ""
  chapter : String := ""
  type : String := "short"
  question : String := ""
  answer : String := ""
  keywords : List String := []
  options : Option (List String) := none
  correctOption : Option Int := none
  diagram : Option String := none
  image_search_query : Option String := none
  source : String := "practice"
deriving DecidableEq, Repr

inductive RoomState where
  | waiting
  | in_question
  | showing_answer
  | finished
deriving DecidableEq, Repr

def RoomState.toStr : RoomState → String
  | .waiting => "waiting"
  | .in_question => "in_question"
  | .showing_answer => "showing_answer"
  | .finished => "finished"

/-- `room.totalRounds` is either a number (fixed target) or the string
literal `'Unlimited'`. -/
inductive TotalRounds where
  | unlimited
  | fixed (n : Nat)
deriving DecidableEq, Repr

def TotalRounds.toJVal : TotalRounds → JVal
  | .unlimited => .str "Unlimited"
  | .fixed n => .num n

/-- The comparison `room.questionIndex >= room.totalRounds`.  When
`totalRounds` is the string `'Unlimited'` the JS numeric comparison is
false (NaN); the code only evaluates it when `isUnlimited` is false. -/
def reachedTarget (idx : Nat) : TotalRounds → Bool
  | .fixed n => n ≤ idx
  | .unlimited => false

structure Player where
  id : ConnId
  name : String
deriving DecidableEq, Repr

structure FilterParams where
  grade : Option Int := none
  subject : Option String := none
  chapter : Option String := none
  useAi : Bool := false
deriving DecidableEq, Repr

structure Room where
  id : String
  hostId : ConnId
  hostName : String := "Host"
  players : List (ConnId × Player) := []
  questions : List Question
  questionIndex : Nat := 0
  totalRounds : TotalRounds
  isUnlimited : Bool := false
  filterParams : FilterParams := {}
  done : List ConnId := []
  finishTimes : List (ConnId × Int) := []
  answers : List (ConnId × Int) := []
  state : RoomState := .waiting
  startTime : Int := 0
deriving DecidableEq, Repr

/-! Association-list operations, modelling plain-object maps keyed by socket
id (insertion order preserved; assignment to an existing key keeps its
position), and insertion-ordered JS `Set`s. -/

def assocHas {α : Type} (l : List (ConnId × α)) (k : ConnId) : Bool :=
  l.any (fun kv => kv.1 == k)

def assocGet {α : Type} (l : List (ConnId × α)) (k : ConnId) : Option α :=
  (l.find? (fun kv => kv.1 == k)).map (·.2)

def assocSet {α : Type} (l : List (ConnId × α)) (k : ConnId) (v : α) :
    List (ConnId × α) :=
  if assocHas l k then l.map (fun kv => if kv.1 == k then (k, v) else kv)
  else l ++ [(k, v)]

def assocRemove {α : Type} (l : List (ConnId × α)) (k : ConnId) :
    List (ConnId × α) :=
  l.filter (fun kv => kv.1 != k)

def keysOf {α : Type} (l : List (ConnId × α)) : List ConnId :=
  l.map Prod.fst

def setInsert (l : List ConnId) (c : ConnId) : List ConnId :=
  if c ∈ l then l else l ++ [c]

def setDelete (l : List ConnId) (c : ConnId) : List ConnId :=
  l.filter (fun x => x != c)

/-- Environment of ambient effects: the static question bank (after pack
merge), the RNG shuffle (`shuffleArray`), the synthetic fallback generator
stream (`fgen t` is the question the template generators produce on the
`t`-th attempt of one `generateQuestionsFallback` call, absorbing
`makeId`/`randInt`/template choice), the AI provider, and the diagram-file
existence check used by `getDiagramUrl`. -/
structure Env where
  bank : List Question
  shuffle : List Question → List Question
  fgen : Nat → Question
  aiEnabled : Bool := false
  aiRaw : List Question := []
  diagramExists : String → Bool := fun _ => false

/-! JSON conversion helpers for payload fields. -/

def jOptStr : Option String → JVal
  | none => .null
  | some s => .str s

def jOptInt : Option Int → JVal
  | none => .null
  | some n => .num n

def jStrArr (l : List String) : JVal :=
  .arr (l.map .str)

def jOptStrArr : Option (List String) → JVal
  | none => .null
  | some l => jStrArr l

/-- `getDiagramUrl`: sanitize the id, then serve the svg path when the file
exists, else `null`. -/
def sanitizeDiagramId (s : String) : String :=
  String.mk (s.toList.filter (fun ch => ch.isAlphanum || ch = '_' || ch = '-'))

def getDiagramUrl (env : Env) : Option String → JVal
  | none => .null
  | some d =>
    if d = "" then .null
    else
      let safe := sanitizeDiagramId d
      if safe = "" then .null
      else if env.diagramExists safe then .str ("/diagrams/" ++ safe ++ ".svg")
      else .null

structure SourceInfo where
  name : String
  url : Option String
  icon : String
deriving Repr

def TRUSTED_SOURCES : List (String × SourceInfo) :=
  [("practice", ⟨"Practice", none, "P"⟩),
   ("ai", ⟨"AI (Gemini)", some "https://ai.google.dev", "A"⟩),
   ("ncert", ⟨"NCERT", some "https://ncert.nic.in", "N"⟩),
   ("vedantu", ⟨"Vedantu", some "https://vedantu.com", "V"⟩),
   ("byjus", ⟨"Byjus", some "https://byjus.com", "B"⟩),
   ("pw", ⟨"Physics Wallah", some "https://physicswallah.live", "W"⟩),
   ("exemplar", ⟨"NCERT Exemplar", some "https://ncert.nic.in/exemplar.php", "E"⟩),
   ("rdSharma", ⟨"RD Sharma", some "#", "R"⟩),
   ("rsAggarwal", ⟨"RS Aggarwal", some "#", "S"⟩),
   ("pyq", ⟨"CBSE PYQ", some "https://cbse.gov.in", "Q"⟩),
   ("hots", ⟨"HOTS", some "#", "H"⟩)]

/-- `TRUSTED_SOURCES[q.source] || { name: q.source }`. -/
def trustedSourceJ (s : String) : JVal :=
  match (TRUSTED_SOURCES.find? (fun kv => kv.1 == s)).map (·.2) with
  | some info =>
    .obj [("name", .str info.name), ("url", jOptStr info.url),
          ("icon", .str info.icon)]
  | none => .obj [("name", .str s)]

/-- Placeholder for the `undefined` that JS indexing yields out of range;
reachable states only read the current question while the index is in
range. -/
def defaultQuestion : Question := { id := "" }

/-! Payload builders, transcribing the object literals in `server.js`
key-for-key in source order. -/

def playerJ (p : Player) : JVal :=
  .obj [("id", .str p.id), ("name", .str p.name)]

def playersArrJ (players : List (ConnId × Player)) : JVal :=
  .arr (players.map (fun kv => playerJ kv.2))

/-- The `currentQuestion` object of `getPublicRoomState`. -/
def publicQuestionJ (env : Env) (q : Question) : JVal :=
  .obj [("question", .str q.question),
        ("type", .str q.type),
        ("options", jOptStrArr q.options),
        ("diagramUrl", getDiagramUrl env q.diagram),
        ("imageSearchQuery", jOptStr q.image_search_query),
        ("source", trustedSourceJ q.source)]

def getPublicRoomState (env : Env) (r : Room) : JVal :=
  let q := r.questions.getD r.questionIndex defaultQuestion
  .obj [("questionIndex", .num r.questionIndex),
        ("totalRounds", r.totalRounds.toJVal),
        ("state", .str r.state.toStr),
        ("players", playersArrJ r.players),
        ("currentQuestion",
          if r.state = .in_question ∨ r.state = .showing_answer then
            publicQuestionJ env q
          else .null)]

/-- Payload of `questionStarted`, as emitted by `startGame` and `hostNext`
(the room passed in already carries the updated index and start time). -/
def questionStartedPayload (env : Env) (r : Room) (q : Question) : JVal :=
  .obj [("questionIndex", .num ((r.questionIndex : Int) + 1)),
        ("totalRounds", r.totalRounds.toJVal),
        ("question", .str q.question),
        ("type", .str q.type),
        ("options", jOptStrArr q.options),
        ("diagramUrl", getDiagramUrl env q.diagram),
        ("imageSearchQuery", jOptStr q.image_search_query),
        ("source", trustedSourceJ q.source),
        ("startTime", .num r.startTime)]

/-- `room.finishTimes[id] || null` (a 0 ms time is falsy and becomes null). -/
def finishTimeJ : Option Int → JVal
  | none => .null
  | some v => if v = 0 then .null else .num v

def finishTimesJ (r : Room) : JVal :=
  .obj (r.players.map (fun kv => (kv.2.name, finishTimeJ (assocGet r.finishTimes kv.1))))

/-- One entry of `playerAnswers`: mcq correctness is strict equality of the
submitted answer with `correctOption` (an undefined `correctOption` compares
unequal); non-mcq correctness is null. -/
def playerAnswerJ (q : Question) (a : Int) : JVal :=
  .obj [("answer", .num a),
        ("correct",
          if q.type == "mcq" then
            match q.correctOption with
            | some co => .bool (a == co)
            | none => .bool false
          else .null)]

def playerAnswersJ (r : Room) (q : Question) : JVal :=
  .obj (r.players.filterMap (fun kv =>
    (assocGet r.answers kv.1).map (fun a => (kv.2.name, playerAnswerJ q a))))

/-- Payload of `showAnswer`. -/
def showAnswerPayload (env : Env) (r : Room) (q : Question)
    (times panswers : JVal) : JVal :=
  .obj [("questionIndex", .num ((r.questionIndex : Int) + 1)),
        ("totalRounds", r.totalRounds.toJVal),
        ("question", .str q.question),
        ("type", .str q.type),
        ("options", jOptStrArr q.options),
        ("correctOption", jOptInt q.correctOption),
        ("answer", .str q.answer),
        ("keywords", jStrArr q.keywords),
        ("diagramUrl", getDiagramUrl env q.diagram),
        ("imageSearchQuery", jOptStr q.image_search_query),
        ("source", trustedSourceJ q.source),
        ("finishTimes", times),
        ("playerAnswers", panswers)]

/-! The question-selection pipeline (`selectQuestions` and its tiers). -/

structure SelectParams where
  grade : Option Int := none
  subject : Option String := none
  chapter : Option String := none
  questionType : Option String := none
  useAi : Bool := false
deriving DecidableEq, Repr

structure SelectResult where
  questions : List Question
  rounds : Nat
  available : Nat
deriving DecidableEq, Repr

/-- `Math.max(1, parseInt(rounds, 10) || 5)`; `none` models NaN. -/
def requestedRounds (roundsArg : Option Int) : Nat :=
  (max 1 (match roundsArg with
          | none => 5
          | some r => if r = 0 then 5 else r)).toNat

/-- `excludeIds.add(id)` on a set modelled as an insertion-ordered list. -/
def addId (ex : List String) (i : String) : List String :=
  if i ∈ ex then ex else ex ++ [i]

/-- The dedup loop of `generateQuestionsAI`: drop entries with a missing id
or an id already excluded, record accepted ids. -/
def aiDedupGo : List Question → List String → List Question →
    List String × List Question
  | [], ex, out => (ex, out)
  | q :: rest, ex, out =>
    if q.id = "" ∨ q.id ∈ ex then aiDedupGo rest ex out
    else aiDedupGo rest (ex ++ [q.id]) (out ++ [q])

/-- `generateQuestionsAI`: empty when the provider is disabled or fails,
otherwise the provider output deduplicated against `ex`. -/
def generateQuestionsAI (env : Env) (ex : List String) :
    List String × List Question :=
  if env.aiEnabled then aiDedupGo env.aiRaw ex [] else (ex, [])

/-- The loop of `generateQuestionsFallback`:
`while (out.length < count && attempts < count * 12)`; a generated id that
is already excluded is skipped, otherwise it is recorded and kept.  `fuel`
is the remaining attempt budget and `t` the attempt number. -/
def fallbackGo (fgen : Nat → Question) (count : Nat) :
    Nat → Nat → List Question → List String → List Question
  | 0, _, out, _ => out
  | fuel + 1, t, out, ex =>
    if out.length < count then
      let q := fgen t
      if q.id ∈ ex then fallbackGo fgen count fuel (t + 1) out ex
      else fallbackGo fgen count fuel (t + 1) (out ++ [q]) (ex ++ [q.id])
    else out

def generateQuestionsFallback (fgen : Nat → Question) (count : Nat)
    (ex : List String) : List Question :=
  fallbackGo fgen count (count * 12) 0 [] ex

/-- Step 2 of `selectQuestions`: filter the bank by the truthy filters,
drop already-excluded ids. -/
def bankFiltered (env : Env) (p : SelectParams) (ex : List String) :
    List Question :=
  let f0 : List Question := env.bank
  let f1 : List Question :=
    match p.grade with
    | some g => f0.filter (fun q => q.grade == g)
    | none => f0
  let f2 : List Question :=
    match p.subject with
    | some s => f1.filter (fun q => q.subject == s)
    | none => f1
  let f3 : List Question :=
    match p.chapter with
    | some c => f2.filter (fun q => q.chapter == c)
    | none => f2
  let f4 : List Question :=
    match p.questionType with
    | some t => f3.filter (fun q => q.type == t)
    | none => f3
  f4.filter (fun q => q.id ∉ ex)

/-- The AI and bank tiers of `selectQuestions`: the selected questions and
the exclude set after steps 1 and 2. -/
def selectStage2 (env : Env) (p : SelectParams) (roundsArg : Option Int) :
    List Question × List String :=
  let requested := requestedRounds roundsArg
  let exAi : List String × List Question :=
    if p.useAi then generateQuestionsAI env [] else ([], [])
  let sel1 := exAi.2
  let ex1 := sel1.foldl (fun e q => addId e q.id) exAi.1
  if sel1.length < requested then
    let fromBank := (env.shuffle (bankFiltered env p ex1)).take (requested - sel1.length)
    (sel1 ++ fromBank, fromBank.foldl (fun e q => addId e q.id) ex1)
  else (sel1, ex1)

/-- `selectQuestions`: AI tier, then static bank, then synthetic fallback.
Note the exclude set is created empty inside the call — the function takes
no exclude set from its caller. -/
def selectQuestions (env : Env) (p : SelectParams) (roundsArg : Option Int) :
    SelectResult :=
  let requested := requestedRounds roundsArg
  let s2 := selectStage2 env p roundsArg
  let sel3 :=
    if s2.1.length < requested then
      s2.1 ++ generateQuestionsFallback env.fgen (requested - s2.1.length) s2.2
    else s2.1
  { questions := sel3, rounds := sel3.length, available := sel3.length }

/-! The socket event handlers. -/

inductive Event where
  | joinRoom (conn : ConnId) (name : Option String)
  | startGame (conn : ConnId)
  | playerDone (conn : ConnId) (answer : Option Int)
  | hostRevealAnswer (conn : ConnId)
  | hostNext (conn : ConnId)
  | disconnect (conn : ConnId)
deriving DecidableEq, Repr

/-- Where an emission goes: a room-wide broadcast or a single connection. -/
inductive Target where
  | room
  | conn (c : ConnId)
deriving DecidableEq, Repr

abbrev Broadcast := Target × String × JVal

/-- The shared tail of `startGame` and the advancing branch of `hostNext`:
reset per-round tracking, stamp the start time, broadcast the question at
the (already updated) cursor. -/
def advanceRound (env : Env) (now : Int) (r : Room) :
    Option Room × List Broadcast :=
  let r2 := { r with state := .in_question, done := [], finishTimes := [],
                     answers := [], startTime := now }
  let q := r2.questions.getD r2.questionIndex defaultQuestion
  (some r2, [(.room, "questionStarted", questionStartedPayload env r2 q)])

/-- One socket event applied to one existing room.  Result `none` means the
room was deleted from the registry. -/
def step (env : Env) (now : Int) (r : Room) : Event → Option Room × List Broadcast
  | .joinRoom c name =>
    if r.hostId = c then
      (some r, [(.conn c, "errorMessage", .str "You are the host.")])
    else
      let pname := match name with
                   | some s => if s.trim = "" then "Player" else s.trim
                   | none => "Player"
      let r2 := { r with players := assocSet r.players c { id := c, name := pname } }
      (some r2,
        [(.conn r2.hostId, "playerListUpdate", .obj [("players", playersArrJ r2.players)]),
         (.conn c, "joinedRoom",
           .obj [("roomId", .str r2.id), ("playerName", .str pname),
                 ("state", getPublicRoomState env r2)])])
  | .startGame c =>
    if r.hostId = c then
      let r2 := { r with state := .in_question, questionIndex := 0, done := [],
                         finishTimes := [], answers := [], startTime := now }
      let q := r2.questions.getD r2.questionIndex defaultQuestion
      (some r2, [(.room, "questionStarted", questionStartedPayload env r2 q)])
    else (some r, [])
  | .playerDone c a =>
    if r.state = .in_question ∧ assocHas r.players c = true then
      if c ∈ r.done then (some r, [])
      else
        let r1 := { r with done := setInsert r.done c,
                           finishTimes := assocSet r.finishTimes c (now - r.startTime),
                           answers := match a with
                                      | some v => assocSet r.answers c v
                                      | none => r.answers }
        if r1.players.length ≤ r1.done.length then
          let q := r1.questions.getD r1.questionIndex defaultQuestion
          let r2 := { r1 with state := .showing_answer }
          (some r2, [(.room, "showAnswer",
            showAnswerPayload env r2 q (finishTimesJ r2) (playerAnswersJ r2 q))])
        else (some r1, [])
    else (some r, [])
  | .hostRevealAnswer c =>
    if r.hostId = c ∧ r.state = .in_question then
      if 0 < r.players.length then (some r, [])
      else
        let q := r.questions.getD r.questionIndex defaultQuestion
        let r2 := { r with state := .showing_answer }
        (some r2, [(.room, "showAnswer",
          showAnswerPayload env r2 q (.obj []) (.obj []))])
    else (some r, [])
  | .hostNext c =>
    if r.hostId = c ∧ r.state = .showing_answer then
      let r1 := { r with questionIndex := r.questionIndex + 1 }
      if r1.isUnlimited = false ∧ reachedTarget r1.questionIndex r1.totalRounds = true then
        let r2 := { r1 with state := .finished }
        (some r2, [(.room, "gameOver", .obj [("totalRounds", r2.totalRounds.toJVal)])])
      else
        if r1.isUnlimited = true ∧ r1.questions.length - r1.questionIndex ≤ 2 then
          let newQs := (selectQuestions env
            { grade := r1.filterParams.grade, subject := r1.filterParams.subject,
              chapter := r1.filterParams.chapter, questionType := none,
              useAi := r1.filterParams.useAi } (some 5)).questions
          let existingIds := r1.questions.map Question.id
          let r2 : Room := { r1 with questions :=
            r1.questions ++ newQs.filter (fun nq => nq.id ∉ existingIds) }
          if r2.questions.length ≤ r2.questionIndex then
            let r3 := { r2 with state := .finished }
            (some r3, [(.room, "gameOver",
              .obj [("totalRounds", .num (r3.questionIndex : Int))])])
          else advanceRound env now r2
        else advanceRound env now r1
    else (some r, [])
  | .disconnect c =>
    if r.hostId = c then
      (none, [(.room, "errorMessage", .str "Host disconnected.")])
    else if assocHas r.players c then
      let r2 := { r with players := assocRemove r.players c,
                         done := setDelete r.done c,
                         finishTimes := assocRemove r.finishTimes c,
                         answers := assocRemove r.answers c }
      (some r2,
        if r2.hostId ≠ "" then
          [(.conn r2.hostId, "playerListUpdate",
            .obj [("players", playersArrJ r2.players)])]
        else [])
    else (some r, [])

/-- Dispatch including the unknown-room case: `joinRoom` reports an error to
the caller, every other event is dropped. -/
def handleEvent (env : Env) (now : Int) :
    Option Room → Event → Option Room × List Broadcast
  | none, .joinRoom c _ =>
    (none, [(.conn c, "errorMessage", .str "Room not found.")])
  | none, _ => (none, [])
  | some r, ev => step env now r ev

/-- Run a sequence of events, collecting all emissions. -/
def runTrace (env : Env) (now : Int) :
    Option Room → List Event → Option Room × List Broadcast
  | r, [] => (r, [])
  | r, ev :: evs =>
    let s1 := handleEvent env now r ev
    let s2 := runTrace env now s1.1 evs
    (s2.1, s1.2 ++ s2.2)

/-- `parseInt(totalRounds, 10) || 5` then the `-1` (unlimited) rewrite. -/
def createRequested (trArg : Option Int) : Int :=
  let r0 : Int := match trArg with
                  | none => 5
                  | some v => if v = 0 then 5 else v
  if r0 = -1 then 5 else r0

def createIsUnlimited (trArg : Option Int) : Bool :=
  (match trArg with
   | none => (5 : Int)
   | some v => if v = 0 then 5 else v) = -1

/-- The `createRoom` handler (with no PUBLIC_URL configured, so `joinUrl`
is null). -/
def createRoom (env : Env) (roomId : String) (hostConn : ConnId)
    (hostName : Option String) (trArg : Option Int)
    (grade : Option Int) (subject chapter : Option String)
    (useAi playAsHost : Bool) : Option Room × List Broadcast :=
  let isUnl := createIsUnlimited trArg
  let res := selectQuestions env
    { grade := grade, subject := subject, chapter := chapter,
      questionType := none, useAi := useAi } (some (createRequested trArg))
  if res.questions.length = 0 then
    (none, [(.conn hostConn, "errorMessage", .str "No questions found for selected filters.")])
  else
    let hname := match hostName with
                 | some s => if s.trim = "" then "Host" else s.trim
                 | none => "Host"
    let room0 : Room :=
      { id := roomId, hostId := hostConn, hostName := hname, players := [],
        questions := res.questions, questionIndex := 0,
        totalRounds := if isUnl then .unlimited else .fixed res.rounds,
        isUnlimited := isUnl,
        filterParams := { grade := grade, subject := subject,
                          chapter := chapter, useAi := useAi },
        done := [], finishTimes := [], answers := [],
        state := .waiting, startTime := 0 }
    let hostPlayer : Player := { id := hostConn, name := hname ++ " (Host)" }
    let room1 : Room :=
      if playAsHost then
        { room0 with players := assocSet room0.players hostConn hostPlayer }
      else room0
    (some room1,
      [(.conn hostConn, "roomCreated",
        .obj [("roomId", .str roomId), ("joinUrl", .null),
              ("totalRounds", .num (res.rounds : Int)),
              ("hostName", .str hname)])])

/-- Does the emission list contain an event with the given name? -/
def emitsB (bs : List Broadcast) (name : String) : Bool :=
  bs.any (fun b => b.2.1 == name)

/-- Number of emissions with the given event name. -/
def countEmits (bs : List Broadcast) (name : String) : Nat :=
  (bs.filter (fun b => b.2.1 == name)).length

/-! Concrete fixtures used by witnesses and counterexamples. -/

def qB1 : Question :=
  { id := "B1", grade := 10, subject := "Mathematics", chapter := "Probability",
    type := "short", question := "Q1?", answer := "Ans1.", keywords := ["k1"],
    source := "ncert" }

def qB2 : Question :=
  { id := "B2", grade := 10, subject := "Mathematics", chapter := "Probability",
    type := "mcq", question := "Q2?", answer := "Ans2.", keywords := ["k2"],
    options := some ["a", "b", "c", "d"], correctOption := some 1,
    source := "ncert" }

def fallbackQs : List Question :=
  [{ id := "F0" }, { id := "F1" }, { id := "F2" }, { id := "F3" }, { id := "F4" }]

def envEx : Env :=
  { bank := [qB1], shuffle := fun l => l,
    fgen := fun t => fallbackQs.getD t { id := "FX" } }

def envEx2 : Env :=
  { bank := [qB1, qB2], shuffle := fun l => l,
    fgen := fun t => fallbackQs.getD t { id := "FX" } }

def playerP1 : Player := { id := "p", name := "Player" }

def roomEx : Room :=
  { id := "R", hostId := "h", questions := [qB1], totalRounds := .fixed 1 }

def roomEx2 : Room :=
  { id := "R", hostId := "h", questions := [qB1, qB2], totalRounds := .fixed 2 }

/-! Helper lemmas about the association-list and set operations. -/

theorem mem_keysOf_of_assocHas {α : Type} {l : List (ConnId × α)} {c : ConnId}
    (h : assocHas l c = true) : c ∈ keysOf l := by
  simp only [assocHas, List.any_eq_true, beq_iff_eq] at h
  obtain ⟨kv, hkv, hk⟩ := h
  exact List.mem_map.mpr ⟨kv, hkv, hk⟩

theorem keysOf_subset_assocSet {α : Type} (l : List (ConnId × α)) (k : ConnId) (v : α) :
    keysOf l ⊆ keysOf (assocSet l k v) := by
  unfold assocSet
  split
  · intro x hx
    have hmap : keysOf (l.map fun kv => if kv.1 == k then (k, v) else kv) = keysOf l := by
      unfold keysOf
      rw [List.map_map]
      apply List.map_congr_left
      intro kv _
      by_cases hkv : kv.1 = k
      · simp [hkv]
      · simp [hkv]
    rw [hmap]
    exact hx
  · intro x hx
    unfold keysOf at hx ⊢
    rw [List.map_append]
    exact List.mem_append_left _ hx

theorem mem_keysOf_assocRemove {α : Type} {l : List (ConnId × α)} {k x : ConnId}
    (hx : x ∈ keysOf l) (hne : x ≠ k) : x ∈ keysOf (assocRemove l k) := by
  obtain ⟨kv, hkv, hfst⟩ := List.mem_map.mp hx
  refine List.mem_map.mpr ⟨kv, List.mem_filter.mpr ⟨hkv, ?_⟩, hfst⟩
  rw [hfst]
  simpa using hne

theorem setInsert_subset {l : List ConnId} {c : ConnId} {s : List ConnId}
    (hl : l ⊆ s) (hc : c ∈ s) : setInsert l c ⊆ s := by
  unfold setInsert
  split
  · exact hl
  · intro x hx
    rcases List.mem_append.mp hx with h | h
    · exact hl h
    · exact (List.mem_singleton.mp h) ▸ hc

theorem mem_setDelete {l : List ConnId} {c x : ConnId} (h : x ∈ setDelete l c) :
    x ∈ l ∧ x ≠ c := by
  have h2 := List.mem_filter.mp h
  exact ⟨h2.1, by simpa using h2.2⟩

/-- One step preserves the invariant `done ⊆ keys(players)`. -/
theorem step_done_subset (env : Env) (now : Int) (r : Room) (ev : Event) (r2 : Room)
    (hstep : (step env now r ev).1 = some r2)
    (hinv : r.done ⊆ keysOf r.players) : r2.done ⊆ keysOf r2.players := by
  cases ev with
  | joinRoom c name =>
    simp only [step] at hstep
    split at hstep
    · exact (Option.some.inj hstep) ▸ hinv
    · have h := Option.some.inj hstep
      subst h
      intro x hx
      exact keysOf_subset_assocSet _ _ _ (hinv hx)
  | startGame c =>
    simp only [step] at hstep
    split at hstep
    · have h := Option.some.inj hstep
      subst h
      intro x hx
      exact absurd hx (List.not_mem_nil x)
    · exact (Option.some.inj hstep) ▸ hinv
  | playerDone c a =>
    simp only [step] at hstep
    split at hstep
    next hcond =>
      split at hstep
      next hdone =>
        exact (Option.some.inj hstep) ▸ hinv
      next hdone =>
        split at hstep
        · have h := Option.some.inj hstep
          subst h
          intro x hx
          exact setInsert_subset hinv (mem_keysOf_of_assocHas hcond.2) hx
        · have h := Option.some.inj hstep
          subst h
          intro x hx
          exact setInsert_subset hinv (mem_keysOf_of_assocHas hcond.2) hx
    next hcond =>
      exact (Option.some.inj hstep) ▸ hinv
  | hostRevealAnswer c =>
    simp only [step] at hstep
    split at hstep
    · split at hstep
      · exact (Option.some.inj hstep) ▸ hinv
      · exact (Option.some.inj hstep) ▸ hinv
    · exact (Option.some.inj hstep) ▸ hinv
  | hostNext c =>
    simp only [step, advanceRound] at hstep
    split at hstep
    · split at hstep
      · exact (Option.some.inj hstep) ▸ hinv
      · split at hstep
        · split at hstep
          · exact (Option.some.inj hstep) ▸ hinv
          · have h := Option.some.inj hstep
            subst h
            intro x hx
            exact absurd hx (List.not_mem_nil x)
        · have h := Option.some.inj hstep
          subst h
          intro x hx
          exact absurd hx (List.not_mem_nil x)
    · exact (Option.some.inj hstep) ▸ hinv
  | disconnect c =>
    simp only [step] at hstep
    split at hstep
    · exact Option.noConfusion hstep
    · split at hstep
      next hhas =>
        have h := Option.some.inj hstep
        subst h
        intro x hx
        have hx2 := mem_setDelete hx
        exact mem_keysOf_assocRemove (hinv hx2.1) hx2.2
      next hhas =>
        exact (Option.some.inj hstep) ▸ hinv

theorem runTrace_none_fst (env : Env) (now : Int) (evs : List Event) :
    (runTrace env now none evs).1 = none := by
  induction evs with
  | nil => rfl
  | cons ev evs ih =>
    cases ev <;> simpa [runTrace, handleEvent] using ih

theorem runTrace_cons_fst (env : Env) (now : Int) (r : Room) (ev : Event)
    (evs : List Event) :
    (runTrace env now (some r) (ev :: evs)).1 =
      (runTrace env now (step env now r ev).1 evs).1 := rfl

theorem runTrace_done_subset (env : Env) (now : Int) (evs : List Event) :
    ∀ r rf : Room, (runTrace env now (some r) evs).1 = some rf →
      r.done ⊆ keysOf r.players → rf.done ⊆ keysOf rf.players := by
  induction evs with
  | nil =>
    intro r rf h hinv
    exact (Option.some.inj h) ▸ hinv
  | cons ev evs ih =>
    intro r rf h hinv
    rw [runTrace_cons_fst] at h
    rcases hs : (step env now r ev).1 with _ | r1
    · rw [hs, runTrace_none_fst] at h
      exact Option.noConfusion h
    · rw [hs] at h
      exact ih r1 rf h (step_done_subset env now r ev r1 hs hinv)

/-- C1: for every room reachable by a `createRoom` followed by any sequence
of events (join, start, playerDone, hostRevealAnswer, hostNext, disconnect),
the `done` set is a subset of the keys of `players`. -/
theorem done_subset_players (env : Env) (now : Int) (roomId : String)
    (hostConn : ConnId) (hostName : Option String) (trArg grade : Option Int)
    (subject chapter : Option String) (useAi playAsHost : Bool)
    (evs : List Event) (r0 rf : Room)
    (hcreate : (createRoom env roomId hostConn hostName trArg grade subject
      chapter useAi playAsHost).1 = some r0)
    (htrace : (runTrace env now (some r0) evs).1 = some rf) :
    rf.done ⊆ keysOf rf.players := by
  have h0 : r0.done ⊆ keysOf r0.players := by
    simp only [createRoom] at hcreate
    split at hcreate
    · exact Option.noConfusion hcreate
    · have h := Option.some.inj hcreate
      subst h
      split
      · intro x hx
        exact absurd hx (List.not_mem_nil x)
      · intro x hx
        exact absurd hx (List.not_mem_nil x)
  exact runTrace_done_subset env now evs r0 rf htrace h0

def roomExJ : Room := { roomEx with players := [("p", playerP1)] }

/-- Witness for C1 at a concrete creation and trace. -/
theorem done_subset_players_witness :
    (createRoom envEx "R" "h" none (some 1) none none none false false).1 = some roomEx ∧
    (runTrace envEx 0 (some roomEx) [Event.joinRoom "p" none]).1 = some roomExJ ∧
    roomExJ.done ⊆ keysOf roomExJ.players :=
  ⟨by decide, by decide,
    done_subset_players envEx 0 "R" "h" none (some 1) none none none false false
      [Event.joinRoom "p" none] roomEx roomExJ (by decide) (by decide)⟩

/-- C2: in state `in_question`, a `playerDone` from a connection that is not
a registered player, or a repeated `playerDone` from a connection already in
`done`, is a complete no-op: the room is unchanged (so in particular the
size of `done` is unchanged) and nothing is broadcast. -/
theorem playerDone_nonplayer_or_repeat_noop (env : Env) (now : Int) (r : Room)
    (c : ConnId) (a : Option Int)
    (hstate : r.state = .in_question)
    (hbad : assocHas r.players c = false ∨ c ∈ r.done) :
    step env now r (.playerDone c a) = (some r, []) := by
  by_cases hpl : assocHas r.players c = true
  · rcases hbad with hb | hb
    · rw [hpl] at hb
      exact Bool.noConfusion hb
    · simp only [step]
      rw [if_pos ⟨hstate, hpl⟩, if_pos hb]
  · simp only [step]
    rw [if_neg (fun h => hpl h.2)]

def roomDoneEx : Room :=
  { roomEx with state := .in_question, players := [("p", playerP1)], done := ["p"] }

/-- Witness for C2: a second `playerDone` from "p" is dropped. -/
theorem playerDone_nonplayer_or_repeat_noop_witness :
    roomDoneEx.state = .in_question ∧ "p" ∈ roomDoneEx.done ∧
    step envEx 5 roomDoneEx (.playerDone "p" none) = (some roomDoneEx, []) :=
  ⟨rfl, by decide,
    playerDone_nonplayer_or_repeat_noop envEx 5 roomDoneEx "p" none rfl
      (Or.inr (by decide))⟩

/-! Monotonicity of the round cursor. -/

theorem hostNext_increments (env : Env) (now : Int) (r : Room) (c : ConnId)
    (r2 : Room) (hh : r.hostId = c) (hs : r.state = .showing_answer)
    (hstep : (step env now r (.hostNext c)).1 = some r2) :
    r2.questionIndex = r.questionIndex + 1 := by
  simp only [step, advanceRound] at hstep
  rw [if_pos ⟨hh, hs⟩] at hstep
  split at hstep
  · have h := Option.some.inj hstep
    subst h
    rfl
  · split at hstep
    · split at hstep
      · have h := Option.some.inj hstep
        subst h
        rfl
      · have h := Option.some.inj hstep
        subst h
        rfl
    · have h := Option.some.inj hstep
      subst h
      rfl

theorem step_questionIndex_mono (env : Env) (now : Int) (r : Room) (ev : Event)
    (r2 : Room) (hev : ∀ c, ev ≠ .startGame c)
    (hstep : (step env now r ev).1 = some r2) :
    r.questionIndex ≤ r2.questionIndex := by
  cases ev with
  | startGame c => exact absurd rfl (hev c)
  | joinRoom c name =>
    simp only [step] at hstep
    split at hstep <;> exact Nat.le_of_eq ((Option.some.inj hstep) ▸ rfl)
  | playerDone c a =>
    simp only [step] at hstep
    split at hstep
    · split at hstep
      · exact Nat.le_of_eq ((Option.some.inj hstep) ▸ rfl)
      · split at hstep <;> exact Nat.le_of_eq ((Option.some.inj hstep) ▸ rfl)
    · exact Nat.le_of_eq ((Option.some.inj hstep) ▸ rfl)
  | hostRevealAnswer c =>
    simp only [step] at hstep
    split at hstep
    · split at hstep <;> exact Nat.le_of_eq ((Option.some.inj hstep) ▸ rfl)
    · exact Nat.le_of_eq ((Option.some.inj hstep) ▸ rfl)
  | hostNext c =>
    simp only [step, advanceRound] at hstep
    split at hstep
    · split at hstep
      · exact (Option.some.inj hstep) ▸ Nat.le_succ _
      · split at hstep
        · split at hstep <;> exact (Option.some.inj hstep) ▸ Nat.le_succ _
        · exact (Option.some.inj hstep) ▸ Nat.le_succ _
    · exact Nat.le_of_eq ((Option.some.inj hstep) ▸ rfl)
  | disconnect c =>
    simp only [step] at hstep
    split at hstep
    · exact Option.noConfusion hstep
    · split at hstep <;> exact Nat.le_of_eq ((Option.some.inj hstep) ▸ rfl)

theorem runTrace_questionIndex_mono (env : Env) (now : Int) (evs : List Event)
    (hev : ∀ c, Event.startGame c ∉ evs) :
    ∀ r rf : Room, (runTrace env now (some r) evs).1 = some rf →
      r.questionIndex ≤ rf.questionIndex := by
  induction evs with
  | nil =>
    intro r rf h
    exact Nat.le_of_eq ((Option.some.inj h) ▸ rfl)
  | cons ev evs ih =>
    intro r rf h
    rw [runTrace_cons_fst] at h
    rcases hs : (step env now r ev).1 with _ | r1
    · rw [hs, runTrace_none_fst] at h
      exact Option.noConfusion h
    · rw [hs] at h
      have h1 : r.questionIndex ≤ r1.questionIndex := by
        refine step_questionIndex_mono env now r ev r1 (fun c hc => ?_) hs
        exact hev c (hc ▸ List.mem_cons_self ev evs)
      have h2 := ih (fun c hc => hev c (List.mem_cons_of_mem ev hc)) r1 rf h
      exact Nat.le_trans h1 h2

/-- C4 (amended): `questionIndex` increases by exactly one on every accepted
`hostNext`, and it never decreases over any event sequence that contains no
`startGame`; an accepted `startGame`, which the code allows in any state,
resets it to 0. -/
theorem questionIndex_monotone (env : Env) (now : Int) :
    (∀ (r : Room) (c : ConnId) (r2 : Room), r.hostId = c →
       r.state = .showing_answer → (step env now r (.hostNext c)).1 = some r2 →
       r2.questionIndex = r.questionIndex + 1)
    ∧ (∀ (evs : List Event) (r rf : Room), (∀ c, Event.startGame c ∉ evs) →
       (runTrace env now (some r) evs).1 = some rf →
       r.questionIndex ≤ rf.questionIndex) :=
  ⟨fun r c r2 hh hs hstep => hostNext_increments env now r c r2 hh hs hstep,
   fun evs r rf hev h => runTrace_questionIndex_mono env now evs hev r rf h⟩

def roomShowingEx : Room :=
  { roomEx2 with state := .showing_answer, players := [("p", playerP1)],
                 done := ["p"] }

def roomAfterNextEx : Room :=
  { roomShowingEx with questionIndex := 1, state := .in_question, done := [],
                       finishTimes := [], answers := [], startTime := 0 }

/-- Witness for C4 at a concrete accepted `hostNext`. -/
theorem questionIndex_monotone_witness :
    (step envEx2 0 roomShowingEx (.hostNext "h")).1 = some roomAfterNextEx ∧
    roomAfterNextEx.questionIndex = roomShowingEx.questionIndex + 1 :=
  ⟨by decide,
    (questionIndex_monotone envEx2 0).1 roomShowingEx "h" roomAfterNextEx rfl rfl
      (by decide)⟩

def c4Events : List Event :=
  [.joinRoom "p" none, .startGame "h", .playerDone "p" none, .hostNext "h",
   .playerDone "p" none]

/-- C4 counterexample: after the game has started and the cursor has
advanced to 1, a further (host-issued) `startGame` resets the cursor to 0,
so `questionIndex` does decrease over a sequence of accepted events. -/
theorem questionIndex_decreases_counterexample :
    (runTrace envEx2 0 (some roomEx2) c4Events).1.map Room.questionIndex = some 1 ∧
    (runTrace envEx2 0 (some roomEx2)
      (c4Events ++ [.startGame "h"])).1.map Room.questionIndex = some 0 := by
  constructor
  · decide
  · decide

/-- C9 (amended): the guards the code has are silent no-ops — any event on
an unknown room id (except `joinRoom`, which reports an error to the caller
only), a non-host `startGame`/`hostRevealAnswer`/`hostNext`/`disconnect`-of-
non-member, a `playerDone` in the wrong state or from a non-player or a
repeat, a `hostRevealAnswer` in the wrong state or with players present, and
a `hostNext` outside `showing_answer`.  `joinRoom` by the host reports an
error to the caller only.  (`startGame` has no wrong-state guard: see the
counterexample.) -/
theorem guards_are_noops (env : Env) (now : Int) (r : Room) (c : ConnId)
    (a : Option Int) (name : Option String) :
    (handleEvent env now none (.startGame c) = (none, []))
    ∧ (handleEvent env now none (.playerDone c a) = (none, []))
    ∧ (handleEvent env now none (.hostRevealAnswer c) = (none, []))
    ∧ (handleEvent env now none (.hostNext c) = (none, []))
    ∧ (handleEvent env now none (.disconnect c) = (none, []))
    ∧ (handleEvent env now none (.joinRoom c name) =
        (none, [(.conn c, "errorMessage", .str "Room not found.")]))
    ∧ (r.hostId ≠ c → step env now r (.startGame c) = (some r, []))
    ∧ (r.state ≠ .in_question ∨ assocHas r.players c = false ∨ c ∈ r.done →
        step env now r (.playerDone c a) = (some r, []))
    ∧ (r.hostId ≠ c ∨ r.state ≠ .in_question →
        step env now r (.hostRevealAnswer c) = (some r, []))
    ∧ (r.hostId = c → r.state = .in_question → 0 < r.players.length →
        step env now r (.hostRevealAnswer c) = (some r, []))
    ∧ (r.hostId ≠ c ∨ r.state ≠ .showing_answer →
        step env now r (.hostNext c) = (some r, []))
    ∧ (r.hostId ≠ c → assocHas r.players c = false →
        step env now r (.disconnect c) = (some r, []))
    ∧ (r.hostId = c → step env now r (.joinRoom c name) =
        (some r, [(.conn c, "errorMessage", .str "You are the host.")])) := by
  refine ⟨rfl, rfl, rfl, rfl, rfl, rfl, ?_, ?_, ?_, ?_, ?_, ?_, ?_⟩
  · intro hne
    simp only [step]
    rw [if_neg hne]
  · intro hbad
    rcases hbad with hb | hb | hb
    · simp only [step]
      rw [if_neg (fun h => hb h.1)]
    · simp only [step]
      rw [if_neg (fun h => by rw [hb] at h; exact Bool.noConfusion h.2)]
    · by_cases hpl : assocHas r.players c = true
      · by_cases hst : r.state = .in_question
        · simp only [step]
          rw [if_pos ⟨hst, hpl⟩, if_pos hb]
        · simp only [step]
          rw [if_neg (fun h => hst h.1)]
      · simp only [step]
        rw [if_neg (fun h => hpl h.2)]
  · intro hbad
    rcases hbad with hb | hb
    · simp only [step]
      rw [if_neg (fun h => hb h.1)]
    · simp only [step]
      rw [if_neg (fun h => hb h.2)]
  · intro hh hs hp
    simp only [step]
    rw [if_pos ⟨hh, hs⟩, if_pos hp]
  · intro hbad
    rcases hbad with hb | hb
    · simp only [step]
      rw [if_neg (fun h => hb h.1)]
    · simp only [step]
      rw [if_neg (fun h => hb h.2)]
  · intro hh hp
    simp only [step]
    rw [if_neg hh, if_neg (by rw [hp]; exact Bool.noConfusion)]
  · intro hh
    simp only [step]
    rw [if_pos hh]

/-- Witness for C9: a non-host `hostNext` on a live room is dropped. -/
theorem guards_are_noops_witness :
    roomShowingEx.hostId ≠ "x" ∧
    step envEx2 0 roomShowingEx (.hostNext "x") = (some roomShowingEx, []) :=
  ⟨by decide,
    (guards_are_noops envEx2 0 roomShowingEx "x" none none).2.2.2.2.2.2.2.2.2.2.1
      (Or.inl (by decide))⟩

def c9Events : List Event :=
  [.joinRoom "p" none, .startGame "h", .playerDone "p" none]

def roomC9 : Room :=
  { roomEx2 with players := [("p", playerP1)], state := .showing_answer,
                 done := ["p"], finishTimes := [("p", 0)] }

/-- C9 counterexample: in state `showing_answer` a `startGame` is in the
wrong state for that event (start is waiting → in_question), yet the code
does not drop it: the room state changes and a `questionStarted` broadcast
is emitted, so not every wrong-state event is a silent no-op. -/
theorem wrong_state_startGame_not_noop :
    (runTrace envEx2 0 (some roomEx2) c9Events).1 = some roomC9 ∧
    roomC9.state = .showing_answer ∧
    emitsB (step envEx2 0 roomC9 (.startGame "h")).2 "questionStarted" = true ∧
    (step envEx2 0 roomC9 (.startGame "h")).1 ≠ some roomC9 := by
  refine ⟨by decide, rfl, by decide, by decide⟩

/-- C3: a `showAnswer` is only ever emitted from state `in_question`, and any
event that emits one leaves the room in `showing_answer` (so no second
`showAnswer` can occur until a new round re-enters `in_question`).  From
`in_question`, a `playerDone` emits it exactly when the sender is a
registered player not yet in `done` and the new `done` size reaches the
player count, and a `hostRevealAnswer` emits it exactly when the sender is
the host and there are no players. -/
theorem showAnswer_once (env : Env) (now : Int) (r : Room) (c : ConnId)
    (a : Option Int) :
    (∀ (ev : Event) (ro : Option Room) (bs : List Broadcast),
       step env now r ev = (ro, bs) → emitsB bs "showAnswer" = true →
       r.state = .in_question ∧ ∃ r2, ro = some r2 ∧ r2.state = .showing_answer)
    ∧ (r.state = .in_question →
       (emitsB (step env now r (.playerDone c a)).2 "showAnswer" = true ↔
         assocHas r.players c = true ∧ c ∉ r.done ∧
           r.players.length ≤ (setInsert r.done c).length))
    ∧ (r.state = .in_question →
       (emitsB (step env now r (.hostRevealAnswer c)).2 "showAnswer" = true ↔
         r.hostId = c ∧ r.players = [])) := by
  refine ⟨?_, ?_, ?_⟩
  · intro ev ro bs hstep hemit
    cases ev with
    | joinRoom c2 name =>
      simp only [step] at hstep
      split at hstep <;>
        (injection hstep with h1 h2; subst h2; simp [emitsB] at hemit)
    | startGame c2 =>
      simp only [step] at hstep
      split at hstep <;>
        (injection hstep with h1 h2; subst h2; simp [emitsB] at hemit)
    | playerDone c2 a2 =>
      simp only [step] at hstep
      split at hstep
      next hcond =>
        split at hstep
        · injection hstep with h1 h2
          subst h2
          simp [emitsB] at hemit
        · split at hstep
          · injection hstep with h1 h2
            subst h1
            exact ⟨hcond.1, _, rfl, rfl⟩
          · injection hstep with h1 h2
            subst h2
            simp [emitsB] at hemit
      next hcond =>
        injection hstep with h1 h2
        subst h2
        simp [emitsB] at hemit
    | hostRevealAnswer c2 =>
      simp only [step] at hstep
      split at hstep
      next hcond =>
        split at hstep
        · injection hstep with h1 h2
          subst h2
          simp [emitsB] at hemit
        · injection hstep with h1 h2
          subst h1
          exact ⟨hcond.2, _, rfl, rfl⟩
      next hcond =>
        injection hstep with h1 h2
        subst h2
        simp [emitsB] at hemit
    | hostNext c2 =>
      simp only [step, advanceRound] at hstep
      split at hstep
      · split at hstep
        · injection hstep with h1 h2
          subst h2
          simp [emitsB] at hemit
        · split at hstep
          · split at hstep <;>
              (injection hstep with h1 h2; subst h2; simp [emitsB] at hemit)
          · injection hstep with h1 h2
            subst h2
            simp [emitsB] at hemit
      · injection hstep with h1 h2
        subst h2
        simp [emitsB] at hemit
    | disconnect c2 =>
      simp only [step] at hstep
      split at hstep
      · injection hstep with h1 h2
        subst h2
        simp [emitsB] at hemit
      · split at hstep
        · injection hstep with h1 h2
          subst h2
          split at hemit <;> simp [emitsB] at hemit
        · injection hstep with h1 h2
          subst h2
          simp [emitsB] at hemit
  · intro hst
    constructor
    · intro h
      by_cases hhas : assocHas r.players c = true
      · by_cases hdone : c ∈ r.done
        · simp only [step] at h
          rw [if_pos ⟨hst, hhas⟩, if_pos hdone] at h
          simp [emitsB] at h
        · by_cases hsize : r.players.length ≤ (setInsert r.done c).length
          · exact ⟨hhas, hdone, hsize⟩
          · simp only [step] at h
            rw [if_pos ⟨hst, hhas⟩, if_neg hdone, if_neg hsize] at h
            simp [emitsB] at h
      · simp only [step] at h
        rw [if_neg (fun hc => hhas hc.2)] at h
        simp [emitsB] at h
    · intro h
      obtain ⟨hhas, hdone, hsize⟩ := h
      simp only [step]
      rw [if_pos ⟨hst, hhas⟩, if_neg hdone, if_pos hsize]
      simp [emitsB]
  · intro hst
    constructor
    · intro h
      by_cases hh : r.hostId = c
      · by_cases hp : r.players = []
        · exact ⟨hh, hp⟩
        · simp only [step] at h
          rw [if_pos ⟨hh, hst⟩,
              if_pos (List.length_pos.mpr hp)] at h
          simp [emitsB] at h
      · simp only [step] at h
        rw [if_neg (fun hc => hh hc.1)] at h
        simp [emitsB] at h
    · intro h
      obtain ⟨hh, hp⟩ := h
      simp only [step]
      rw [if_pos ⟨hh, hst⟩, if_neg (by rw [hp]; simp)]
      simp [emitsB]

def roomInQEx : Room :=
  { roomEx2 with state := .in_question, players := [("p", playerP1)] }

/-- Witness for C3: with one player and an empty `done`, that player's
`playerDone` triggers the `showAnswer` broadcast. -/
theorem showAnswer_once_witness :
    roomInQEx.state = RoomState.in_question ∧
    emitsB (step envEx2 0 roomInQEx (.playerDone "p" none)).2 "showAnswer" = true :=
  ⟨rfl, ((showAnswer_once envEx2 0 roomInQEx "p" none).2.1 rfl).mpr
    ⟨by decide, by decide, by decide⟩⟩

/-! Key-privacy lemmas: which object keys can occur in each payload. -/

@[simp] theorem hasKey_null (k : String) : hasKey k .null = false := rfl

@[simp] theorem hasKey_bool (k : String) (b : Bool) :
    hasKey k (.bool b) = false := rfl

@[simp] theorem hasKey_num (k : String) (n : Int) :
    hasKey k (.num n) = false := rfl

@[simp] theorem hasKey_str (k s : String) : hasKey k (.str s) = false := rfl

@[simp] theorem hasKey_arr (k : String) (xs : List JVal) :
    hasKey k (.arr xs) = hasKeyArr k xs := rfl

@[simp] theorem hasKey_obj (k : String) (kvs : List (String × JVal)) :
    hasKey k (.obj kvs) = hasKeyObj k kvs := rfl

@[simp] theorem hasKeyArr_nil (k : String) : hasKeyArr k [] = false := rfl

@[simp] theorem hasKeyArr_cons (k : String) (x : JVal) (xs : List JVal) :
    hasKeyArr k (x :: xs) = (hasKey k x || hasKeyArr k xs) := rfl

@[simp] theorem hasKeyObj_nil (k : String) : hasKeyObj k [] = false := rfl

@[simp] theorem hasKeyObj_cons (k k2 : String) (v : JVal)
    (xs : List (String × JVal)) :
    hasKeyObj k ((k2, v) :: xs) = (k2 == k || hasKey k v || hasKeyObj k xs) := rfl

@[simp] theorem hasKey_jOptStr (k : String) (o : Option String) :
    hasKey k (jOptStr o) = false := by
  cases o <;> rfl

@[simp] theorem hasKey_jOptInt (k : String) (o : Option Int) :
    hasKey k (jOptInt o) = false := by
  cases o <;> rfl

theorem hasKeyArr_map_str (k : String) (l : List String) :
    hasKeyArr k (l.map JVal.str) = false := by
  induction l with
  | nil => rfl
  | cons s l ih => simp [ih]

@[simp] theorem hasKey_jStrArr (k : String) (l : List String) :
    hasKey k (jStrArr l) = false := by
  simp [jStrArr, hasKeyArr_map_str]

@[simp] theorem hasKey_jOptStrArr (k : String) (o : Option (List String)) :
    hasKey k (jOptStrArr o) = false := by
  cases o with
  | none => rfl
  | some l => simp [jOptStrArr]

@[simp] theorem hasKey_getDiagramUrl (env : Env) (k : String) (d : Option String) :
    hasKey k (getDiagramUrl env d) = false := by
  cases d with
  | none => rfl
  | some s =>
    simp only [getDiagramUrl]
    split
    · rfl
    · split
      · rfl
      · split <;> rfl

@[simp] theorem hasKey_totalRounds (k : String) (tr : TotalRounds) :
    hasKey k tr.toJVal = false := by
  cases tr <;> rfl

theorem hasKey_trustedSourceJ (k s : String)
    (h : k ∉ (["name", "url", "icon"] : List String)) :
    hasKey k (trustedSourceJ s) = false := by
  have h1 : ("name" == k) = false :=
    beq_eq_false_iff_ne.mpr (fun he => h (by rw [← he]; simp))
  have h2 : ("url" == k) = false :=
    beq_eq_false_iff_ne.mpr (fun he => h (by rw [← he]; simp))
  have h3 : ("icon" == k) = false :=
    beq_eq_false_iff_ne.mpr (fun he => h (by rw [← he]; simp))
  unfold trustedSourceJ
  split <;> simp [h1, h2, h3]

theorem hasKey_playerJ (k : String) (p : Player)
    (h1 : ("id" == k) = false) (h2 : ("name" == k) = false) :
    hasKey k (playerJ p) = false := by
  simp [playerJ, h1, h2]

theorem hasKey_playersArrJ (k : String) (ps : List (ConnId × Player))
    (h : k ∉ (["id", "name"] : List String)) :
    hasKey k (playersArrJ ps) = false := by
  have h1 : ("id" == k) = false :=
    beq_eq_false_iff_ne.mpr (fun he => h (by rw [← he]; simp))
  have h2 : ("name" == k) = false :=
    beq_eq_false_iff_ne.mpr (fun he => h (by rw [← he]; simp))
  unfold playersArrJ
  rw [hasKey_arr]
  induction ps with
  | nil => rfl
  | cons kv ps ih =>
    simp only [List.map_cons, hasKeyArr_cons, ih, hasKey_playerJ k kv.2 h1 h2,
               Bool.or_false, Bool.false_or]

theorem hasKey_publicQuestionJ (env : Env) (q : Question) (k : String)
    (h : k ∉ (["question", "type", "options", "diagramUrl", "imageSearchQuery",
               "source", "name", "url", "icon"] : List String)) :
    hasKey k (publicQuestionJ env q) = false := by
  have h1 : ("question" == k) = false :=
    beq_eq_false_iff_ne.mpr (fun he => h (by rw [← he]; simp))
  have h2 : ("type" == k) = false :=
    beq_eq_false_iff_ne.mpr (fun he => h (by rw [← he]; simp))
  have h3 : ("options" == k) = false :=
    beq_eq_false_iff_ne.mpr (fun he => h (by rw [← he]; simp))
  have h4 : ("diagramUrl" == k) = false :=
    beq_eq_false_iff_ne.mpr (fun he => h (by rw [← he]; simp))
  have h5 : ("imageSearchQuery" == k) = false :=
    beq_eq_false_iff_ne.mpr (fun he => h (by rw [← he]; simp))
  have h6 : ("source" == k) = false :=
    beq_eq_false_iff_ne.mpr (fun he => h (by rw [← he]; simp))
  have h7 : hasKey k (trustedSourceJ q.source) = false := by
    refine hasKey_trustedSourceJ k q.source (fun hm => h ?_)
    simp at hm
    rcases hm with hm | hm | hm <;> simp [hm]
  simp [publicQuestionJ, h1, h2, h3, h4, h5, h6, h7]

theorem hasKey_getPublicRoomState (env : Env) (r : Room) (k : String)
    (h : k ∉ (["questionIndex", "totalRounds", "state", "players",
               "currentQuestion", "question", "type", "options", "diagramUrl",
               "imageSearchQuery", "source", "name", "url", "icon",
               "id"] : List String)) :
    hasKey k (getPublicRoomState env r) = false := by
  have h1 : ("questionIndex" == k) = false :=
    beq_eq_false_iff_ne.mpr (fun he => h (by rw [← he]; simp))
  have h2 : ("totalRounds" == k) = false :=
    beq_eq_false_iff_ne.mpr (fun he => h (by rw [← he]; simp))
  have h3 : ("state" == k) = false :=
    beq_eq_false_iff_ne.mpr (fun he => h (by rw [← he]; simp))
  have h4 : ("players" == k) = false :=
    beq_eq_false_iff_ne.mpr (fun he => h (by rw [← he]; simp))
  have h5 : ("currentQuestion" == k) = false :=
    beq_eq_false_iff_ne.mpr (fun he => h (by rw [← he]; simp))
  have h6 : hasKey k (playersArrJ r.players) = false := by
    refine hasKey_playersArrJ k r.players (fun hm => h ?_)
    simp at hm
    rcases hm with hm | hm <;> simp [hm]
  simp only [getPublicRoomState]
  simp only [hasKey_obj, hasKeyObj_cons, hasKeyObj_nil, hasKey_num, hasKey_str,
             hasKey_totalRounds, h1, h2, h3, h4, h5, h6, Bool.or_false,
             Bool.false_or]
  split
  · refine hasKey_publicQuestionJ env _ k (fun hm => h ?_)
    simp at hm
    rcases hm with hm | hm | hm | hm | hm | hm | hm | hm | hm <;> simp [hm]
  · simp

theorem hasKey_questionStartedPayload (env : Env) (r : Room) (q : Question)
    (k : String)
    (h : k ∉ (["questionIndex", "totalRounds", "question", "type", "options",
               "diagramUrl", "imageSearchQuery", "source", "startTime",
               "name", "url", "icon"] : List String)) :
    hasKey k (questionStartedPayload env r q) = false := by
  have h1 : ("questionIndex" == k) = false :=
    beq_eq_false_iff_ne.mpr (fun he => h (by rw [← he]; simp))
  have h2 : ("totalRounds" == k) = false :=
    beq_eq_false_iff_ne.mpr (fun he => h (by rw [← he]; simp))
  have h3 : ("question" == k) = false :=
    beq_eq_false_iff_ne.mpr (fun he => h (by rw [← he]; simp))
  have h4 : ("type" == k) = false :=
    beq_eq_false_iff_ne.mpr (fun he => h (by rw [← he]; simp))
  have h5 : ("options" == k) = false :=
    beq_eq_false_iff_ne.mpr (fun he => h (by rw [← he]; simp))
  have h6 : ("diagramUrl" == k) = false :=
    beq_eq_false_iff_ne.mpr (fun he => h (by rw [← he]; simp))
  have h7 : ("imageSearchQuery" == k) = false :=
    beq_eq_false_iff_ne.mpr (fun he => h (by rw [← he]; simp))
  have h8 : ("source" == k) = false :=
    beq_eq_false_iff_ne.mpr (fun he => h (by rw [← he]; simp))
  have h9 : ("startTime" == k) = false :=
    beq_eq_false_iff_ne.mpr (fun he => h (by rw [← he]; simp))
  have h10 : hasKey k (trustedSourceJ q.source) = false := by
    refine hasKey_trustedSourceJ k q.source (fun hm => h ?_)
    simp at hm
    rcases hm with hm | hm | hm <;> simp [hm]
  simp [questionStartedPayload, h1, h2, h3, h4, h5, h6, h7, h8, h9, h10]

/-- The payload has none of the three private question fields as a key,
at any nesting depth. -/
def noAnswerKeys (v : JVal) : Prop :=
  hasKey "answer" v = false ∧ hasKey "keywords" v = false ∧
    hasKey "correctOption" v = false

theorem noAnswerKeys_str (s : String) : noAnswerKeys (.str s) :=
  ⟨rfl, rfl, rfl⟩

theorem noAnswerKeys_questionStarted (env : Env) (r : Room) (q : Question) :
    noAnswerKeys (questionStartedPayload env r q) :=
  ⟨hasKey_questionStartedPayload env r q _ (by decide),
   hasKey_questionStartedPayload env r q _ (by decide),
   hasKey_questionStartedPayload env r q _ (by decide)⟩

theorem noAnswerKeys_joined (env : Env) (r : Room) (roomId pname : String) :
    noAnswerKeys (.obj [("roomId", .str roomId), ("playerName", .str pname),
                        ("state", getPublicRoomState env r)]) := by
  refine ⟨?_, ?_, ?_⟩
  · simp [hasKey_getPublicRoomState env r "answer" (by decide)]
  · simp [hasKey_getPublicRoomState env r "keywords" (by decide)]
  · simp [hasKey_getPublicRoomState env r "correctOption" (by decide)]

theorem noAnswerKeys_playerList (ps : List (ConnId × Player)) :
    noAnswerKeys (.obj [("players", playersArrJ ps)]) := by
  refine ⟨?_, ?_, ?_⟩
  · simp [hasKey_playersArrJ "answer" ps (by decide)]
  · simp [hasKey_playersArrJ "keywords" ps (by decide)]
  · simp [hasKey_playersArrJ "correctOption" ps (by decide)]

theorem noAnswerKeys_gameOverTR (tr : TotalRounds) :
    noAnswerKeys (.obj [("totalRounds", tr.toJVal)]) := by
  refine ⟨?_, ?_, ?_⟩ <;> simp

theorem noAnswerKeys_gameOverNum (n : Int) :
    noAnswerKeys (.obj [("totalRounds", JVal.num n)]) := by
  refine ⟨?_, ?_, ?_⟩ <;> simp

/-- C5: in every emission of every event, any payload of an event other than
`showAnswer` contains none of `answer`, `keywords`, `correctOption` as an
object key at any depth.  In particular `questionStarted` payloads and the
public room state sent in `joinedRoom` never carry them; the three fields
are only ever broadcast inside `showAnswer`. -/
theorem question_privacy (env : Env) (now : Int) (r : Room) (ev : Event) :
    ∀ b ∈ (step env now r ev).2, b.2.1 ≠ "showAnswer" → noAnswerKeys b.2.2 := by
  cases ev with
  | joinRoom c name =>
    simp only [step]
    split
    · intro b hb _
      rcases List.mem_singleton.mp hb with rfl
      exact noAnswerKeys_str _
    · intro b hb _
      rcases List.mem_cons.mp hb with rfl | hb
      · exact noAnswerKeys_playerList _
      · rcases List.mem_singleton.mp hb with rfl
        exact noAnswerKeys_joined env _ _ _
  | startGame c =>
    simp only [step]
    split
    · intro b hb _
      rcases List.mem_singleton.mp hb with rfl
      exact noAnswerKeys_questionStarted env _ _
    · intro b hb _
      exact absurd hb (List.not_mem_nil b)
  | playerDone c a =>
    simp only [step]
    split
    · split
      · intro b hb _
        exact absurd hb (List.not_mem_nil b)
      · split
        · intro b hb hne
          rcases List.mem_singleton.mp hb with rfl
          exact absurd rfl hne
        · intro b hb _
          exact absurd hb (List.not_mem_nil b)
    · intro b hb _
      exact absurd hb (List.not_mem_nil b)
  | hostRevealAnswer c =>
    simp only [step]
    split
    · split
      · intro b hb _
        exact absurd hb (List.not_mem_nil b)
      · intro b hb hne
        rcases List.mem_singleton.mp hb with rfl
        exact absurd rfl hne
    · intro b hb _
      exact absurd hb (List.not_mem_nil b)
  | hostNext c =>
    simp only [step, advanceRound]
    split
    · split
      · intro b hb _
        rcases List.mem_singleton.mp hb with rfl
        exact noAnswerKeys_gameOverTR _
      · split
        · split
          · intro b hb _
            rcases List.mem_singleton.mp hb with rfl
            exact noAnswerKeys_gameOverNum _
          · intro b hb _
            rcases List.mem_singleton.mp hb with rfl
            exact noAnswerKeys_questionStarted env _ _
        · intro b hb _
          rcases List.mem_singleton.mp hb with rfl
          exact noAnswerKeys_questionStarted env _ _
    · intro b hb _
      exact absurd hb (List.not_mem_nil b)
  | disconnect c =>
    simp only [step]
    split
    · intro b hb _
      rcases List.mem_singleton.mp hb with rfl
      exact noAnswerKeys_str _
    · split
      · intro b hb _
        split at hb
        · rcases List.mem_singleton.mp hb with rfl
          exact noAnswerKeys_playerList _
        · exact absurd hb (List.not_mem_nil b)
      · intro b hb _
        exact absurd hb (List.not_mem_nil b)

def qsBEx : Broadcast :=
  (.room, "questionStarted", questionStartedPayload envEx2 roomAfterNextEx qB2)

/-- Witness for C5: the concrete `questionStarted` emitted by an accepted
`hostNext` carries none of the private keys. -/
theorem question_privacy_witness :
    (step envEx2 0 roomShowingEx (.hostNext "h")).2 = [qsBEx] ∧
    noAnswerKeys qsBEx.2.2 :=
  ⟨rfl,
    question_privacy envEx2 0 roomShowingEx (.hostNext "h") qsBEx
      (by rw [show (step envEx2 0 roomShowingEx (.hostNext "h")).2 = [qsBEx] from rfl]
          exact List.mem_singleton.mpr rfl)
      (by decide)⟩

/-! Uniqueness of ids in one `selectQuestions` call. -/

theorem mem_addId_left {ex : List String} {i j : String} (h : i ∈ ex) :
    i ∈ addId ex j := by
  unfold addId
  split
  · exact h
  · exact List.mem_append_left _ h

theorem mem_addId_self (ex : List String) (j : String) : j ∈ addId ex j := by
  unfold addId
  split
  next h => exact h
  next h => exact List.mem_append_right _ (List.mem_singleton.mpr rfl)

theorem subset_foldl_addId (l : List Question) :
    ∀ (ex : List String) (i : String), i ∈ ex →
      i ∈ l.foldl (fun e q => addId e q.id) ex := by
  induction l with
  | nil => intro ex i hi; exact hi
  | cons q l ih =>
    intro ex i hi
    simp only [List.foldl_cons]
    exact ih _ i (mem_addId_left hi)

theorem mem_foldl_addId (l : List Question) :
    ∀ (ex : List String) (q : Question), q ∈ l →
      q.id ∈ l.foldl (fun e q => addId e q.id) ex := by
  induction l with
  | nil => intro ex q hq; exact absurd hq (List.not_mem_nil q)
  | cons q2 l ih =>
    intro ex q hq
    simp only [List.foldl_cons]
    rcases List.mem_cons.mp hq with rfl | hq
    · exact subset_foldl_addId l _ _ (mem_addId_self ex q.id)
    · exact ih _ q hq

theorem aiDedupGo_spec (raw : List Question) :
    ∀ (ex : List String) (out : List Question),
      (out.map Question.id).Nodup → (∀ q ∈ out, q.id ∈ ex) →
      ((aiDedupGo raw ex out).2.map Question.id).Nodup ∧
        (∀ q ∈ (aiDedupGo raw ex out).2, q.id ∈ (aiDedupGo raw ex out).1) ∧
        (∀ i ∈ ex, i ∈ (aiDedupGo raw ex out).1) := by
  induction raw with
  | nil => intro ex out h1 h2; exact ⟨h1, h2, fun i hi => hi⟩
  | cons q rest ih =>
    intro ex out h1 h2
    simp only [aiDedupGo]
    by_cases hskip : q.id = "" ∨ q.id ∈ ex
    · rw [if_pos hskip]
      exact ih ex out h1 h2
    · rw [if_neg hskip]
      have hnot : q.id ∉ ex := fun hc => hskip (Or.inr hc)
      have hnodup : ((out ++ [q]).map Question.id).Nodup := by
        rw [List.map_append]
        refine List.nodup_append.mpr ⟨h1, List.nodup_singleton _, ?_⟩
        intro x hx hx2
        obtain ⟨q2, hq2, rfl⟩ := List.mem_map.mp hx
        have hin : q2.id ∈ ex := h2 q2 hq2
        have hxeq : q2.id = q.id := by simpa using hx2
        exact hnot (hxeq ▸ hin)
      have hsub : ∀ q2 ∈ out ++ [q], q2.id ∈ ex ++ [q.id] := by
        intro q2 hq2
        rcases List.mem_append.mp hq2 with h | h
        · exact List.mem_append_left _ (h2 q2 h)
        · rcases List.mem_singleton.mp h with rfl
          exact List.mem_append_right _ (List.mem_singleton.mpr rfl)
      obtain ⟨a, b, c⟩ := ih (ex ++ [q.id]) (out ++ [q]) hnodup hsub
      exact ⟨a, b, fun i hi => c i (List.mem_append_left _ hi)⟩

theorem fallbackGo_spec (fgen : Nat → Question) (count : Nat) :
    ∀ (fuel t : Nat) (out : List Question) (ex : List String),
      (out.map Question.id).Nodup → (∀ q ∈ out, q.id ∈ ex) →
      ((fallbackGo fgen count fuel t out ex).map Question.id).Nodup ∧
        ∀ q ∈ fallbackGo fgen count fuel t out ex, q ∈ out ∨ q.id ∉ ex := by
  intro fuel
  induction fuel with
  | zero =>
    intro t out ex h1 h2
    exact ⟨h1, fun q hq => Or.inl hq⟩
  | succ fuel ih =>
    intro t out ex h1 h2
    simp only [fallbackGo]
    by_cases hlen : out.length < count
    · rw [if_pos hlen]
      by_cases hmem : (fgen t).id ∈ ex
      · rw [if_pos hmem]
        exact ih (t + 1) out ex h1 h2
      · rw [if_neg hmem]
        have hnodup : ((out ++ [fgen t]).map Question.id).Nodup := by
          rw [List.map_append]
          refine List.nodup_append.mpr ⟨h1, List.nodup_singleton _, ?_⟩
          intro x hx hx2
          obtain ⟨q2, hq2, rfl⟩ := List.mem_map.mp hx
          have hxeq : q2.id = (fgen t).id := by simpa using hx2
          exact hmem (hxeq ▸ h2 q2 hq2)
        have hsub : ∀ q2 ∈ out ++ [fgen t], q2.id ∈ ex ++ [(fgen t).id] := by
          intro q2 hq2
          rcases List.mem_append.mp hq2 with h | h
          · exact List.mem_append_left _ (h2 q2 h)
          · rcases List.mem_singleton.mp h with rfl
            exact List.mem_append_right _ (List.mem_singleton.mpr rfl)
        obtain ⟨a, b⟩ := ih (t + 1) (out ++ [fgen t]) (ex ++ [(fgen t).id]) hnodup hsub
        refine ⟨a, fun q hq => ?_⟩
        rcases b q hq with hq2 | hq2
        · rcases List.mem_append.mp hq2 with h | h
          · exact Or.inl h
          · rcases List.mem_singleton.mp h with rfl
            exact Or.inr hmem
        · exact Or.inr (fun hc => hq2 (List.mem_append_left _ hc))
    · rw [if_neg hlen]
      exact ⟨h1, fun q hq => Or.inl hq⟩

theorem bankFiltered_sublist (env : Env) (p : SelectParams) (ex : List String) :
    List.Sublist (bankFiltered env p ex) env.bank := by
  unfold bankFiltered
  refine List.Sublist.trans (List.filter_sublist _) ?_
  cases p.questionType <;> cases p.chapter <;> cases p.subject <;> cases p.grade <;>
    simp only [] <;>
    (repeat refine List.Sublist.trans (List.filter_sublist _) ?_) <;>
    exact List.Sublist.refl _

theorem mem_bankFiltered (env : Env) (p : SelectParams) (ex : List String)
    (q : Question) (hq : q ∈ bankFiltered env p ex) : q.id ∉ ex := by
  unfold bankFiltered at hq
  have h := List.mem_filter.mp hq
  simpa using h.2

theorem selectStage2_spec (env : Env) (p : SelectParams) (roundsArg : Option Int)
    (hbank : (env.bank.map Question.id).Nodup)
    (hsh : ∀ l, List.Perm (env.shuffle l) l) :
    ((selectStage2 env p roundsArg).1.map Question.id).Nodup ∧
      ∀ q ∈ (selectStage2 env p roundsArg).1,
        q.id ∈ (selectStage2 env p roundsArg).2 := by
  simp only [selectStage2]
  generalize hA : (if p.useAi then generateQuestionsAI env []
    else (([], []) : List String × List Question)) = exAi
  have hAI : ((exAi.2.map Question.id).Nodup) ∧ ∀ q ∈ exAi.2, q.id ∈ exAi.1 := by
    rw [← hA]
    split
    · unfold generateQuestionsAI
      split
      · obtain ⟨a, b, _⟩ := aiDedupGo_spec env.aiRaw [] [] (by simp) (by simp)
        exact ⟨a, b⟩
      · exact ⟨by simp, by simp⟩
    · exact ⟨by simp, by simp⟩
  generalize hE : List.foldl (fun e q => addId e q.id) exAi.1 exAi.2 = ex1
  have hEx1 : ∀ q ∈ exAi.2, q.id ∈ ex1 := by
    rw [← hE]
    exact fun q hq => subset_foldl_addId exAi.2 exAi.1 q.id (hAI.2 q hq)
  split
  next hlen =>
    have hfb1 : (((env.shuffle (bankFiltered env p ex1)).take
        (requestedRounds roundsArg - exAi.2.length)).map Question.id).Nodup := by
      have hn1 : ((bankFiltered env p ex1).map Question.id).Nodup :=
        hbank.sublist ((bankFiltered_sublist env p ex1).map Question.id)
      have hn2 : ((env.shuffle (bankFiltered env p ex1)).map Question.id).Nodup :=
        (((hsh (bankFiltered env p ex1)).map Question.id).nodup_iff).mpr hn1
      exact hn2.sublist ((List.take_sublist _ _).map Question.id)
    have hfb2 : ∀ q ∈ (env.shuffle (bankFiltered env p ex1)).take
        (requestedRounds roundsArg - exAi.2.length), q.id ∉ ex1 := by
      intro q hq
      have hq2 : q ∈ env.shuffle (bankFiltered env p ex1) :=
        List.take_subset _ _ hq
      have hq3 : q ∈ bankFiltered env p ex1 :=
        ((hsh (bankFiltered env p ex1)).mem_iff).mp hq2
      exact mem_bankFiltered env p ex1 q hq3
    constructor
    · rw [List.map_append]
      refine List.nodup_append.mpr ⟨hAI.1, hfb1, ?_⟩
      intro x hx1 hx2
      obtain ⟨q, hq, rfl⟩ := List.mem_map.mp hx1
      obtain ⟨q2, hq2, he⟩ := List.mem_map.mp hx2
      exact hfb2 q2 hq2 (he ▸ hEx1 q hq)
    · intro q hq
      rcases List.mem_append.mp hq with h | h
      · exact subset_foldl_addId _ _ _ (hEx1 q h)
      · exact mem_foldl_addId _ _ q h
  next hlen =>
    exact ⟨hAI.1, fun q hq => hEx1 q hq⟩

/-- C6 (amended): one call of `selectQuestions` never returns two questions
with the same id, provided the static bank's ids are pairwise distinct
(true of the shipped bank) and the shuffle is a permutation.  The function
takes no `excludeIds` from its caller — it builds its own exclude set,
starting empty — so exclusion against pre-existing ids is the caller's job
(`hostNext` filters the results against the queue after the call); on
shortfall it returns a short or empty sequence, it cannot raise. -/
theorem selectQuestions_nodup (env : Env) (p : SelectParams)
    (roundsArg : Option Int)
    (hbank : (env.bank.map Question.id).Nodup)
    (hsh : ∀ l, List.Perm (env.shuffle l) l) :
    ((selectQuestions env p roundsArg).questions.map Question.id).Nodup := by
  obtain ⟨h1, h2⟩ := selectStage2_spec env p roundsArg hbank hsh
  simp only [selectQuestions, generateQuestionsFallback]
  split
  next hlen =>
    rw [List.map_append]
    obtain ⟨a, b⟩ := fallbackGo_spec env.fgen
      (requestedRounds roundsArg - (selectStage2 env p roundsArg).1.length)
      ((requestedRounds roundsArg - (selectStage2 env p roundsArg).1.length) * 12)
      0 [] (selectStage2 env p roundsArg).2 (by simp) (by simp)
    refine List.nodup_append.mpr ⟨h1, a, ?_⟩
    intro x hx1 hx2
    obtain ⟨q, hq, rfl⟩ := List.mem_map.mp hx1
    obtain ⟨q2, hq2, he⟩ := List.mem_map.mp hx2
    rcases b q2 hq2 with h | h
    · exact absurd h (List.not_mem_nil q2)
    · exact h (he ▸ h2 q hq)
  next hlen =>
    exact h1

/-- Witness for C6 (amended) at the concrete environment. -/
theorem selectQuestions_nodup_witness :
    (envEx.bank.map Question.id).Nodup ∧
    ((selectQuestions envEx {} (some 5)).questions.map Question.id).Nodup :=
  ⟨by decide,
    selectQuestions_nodup envEx {} (some 5) (by decide)
      (fun l => List.Perm.refl l)⟩

def roomU : Room :=
  { id := "R", hostId := "h", questions := [qB1], totalRounds := .unlimited,
    isUnlimited := true, state := .showing_answer }

/-- C6 counterexample: `selectQuestions` has no caller-supplied `excludeIds`.
At the one replenishing call site (`hostNext` on `roomU`, whose queue already
holds id "B1"), the spec's intended exclude set is the queue's ids, yet the
call returns a question with id "B1" — the caller's excludes are not
honoured inside the selection. -/
theorem selectQuestions_returns_excluded_id :
    "B1" ∈ (roomU.questions.map Question.id) ∧
    "B1" ∈ ((selectQuestions envEx
      { grade := roomU.filterParams.grade, subject := roomU.filterParams.subject,
        chapter := roomU.filterParams.chapter, questionType := none,
        useAi := roomU.filterParams.useAi } (some 5)).questions.map Question.id) := by
  constructor
  · decide
  · decide

/-! The full fixed-round run (C7) and the replenishment branch (C8). -/

theorem runTrace_cons (env : Env) (now : Int) (r : Room) (ev : Event)
    (evs : List Event) :
    runTrace env now (some r) (ev :: evs) =
      ((runTrace env now (step env now r ev).1 evs).1,
       (step env now r ev).2 ++ (runTrace env now (step env now r ev).1 evs).2) :=
  rfl

theorem countEmits_append (b1 b2 : List Broadcast) (name : String) :
    countEmits (b1 ++ b2) name = countEmits b1 name + countEmits b2 name := by
  simp [countEmits, List.filter_append]

theorem runTrace_nil (env : Env) (now : Int) (st : Option Room) :
    runTrace env now st [] = (st, []) := rfl

theorem step_startGame_parts (env : Env) (now : Int) (r : Room) (hid : ConnId)
    (hh : r.hostId = hid) :
    (∃ r0, (step env now r (.startGame hid)).1 = some r0 ∧
      r0.hostId = r.hostId ∧ r0.players = r.players ∧
      r0.state = .in_question ∧ r0.questionIndex = 0 ∧ r0.done = [] ∧
      r0.isUnlimited = r.isUnlimited ∧ r0.totalRounds = r.totalRounds) ∧
    countEmits (step env now r (.startGame hid)).2 "questionStarted" = 1 ∧
    countEmits (step env now r (.startGame hid)).2 "gameOver" = 0 := by
  simp only [step]
  rw [if_pos hh]
  exact ⟨⟨_, rfl, rfl, rfl, rfl, rfl, rfl, rfl, rfl⟩,
    by simp [countEmits], by simp [countEmits]⟩

theorem step_playerDone_solo (env : Env) (now : Int) (r : Room) (pid : ConnId)
    (pl : Player) (hs : r.state = .in_question) (hp : r.players = [(pid, pl)])
    (hd : r.done = []) :
    (∃ r1, (step env now r (.playerDone pid none)).1 = some r1 ∧
      r1.hostId = r.hostId ∧ r1.players = r.players ∧
      r1.state = .showing_answer ∧ r1.questionIndex = r.questionIndex ∧
      r1.isUnlimited = r.isUnlimited ∧ r1.totalRounds = r.totalRounds) ∧
    countEmits (step env now r (.playerDone pid none)).2 "questionStarted" = 0 ∧
    countEmits (step env now r (.playerDone pid none)).2 "gameOver" = 0 := by
  have hhas : assocHas r.players pid = true := by
    rw [hp]
    simp [assocHas]
  have hnot : pid ∉ r.done := by
    rw [hd]
    exact List.not_mem_nil pid
  have hsize : r.players.length ≤ (setInsert r.done pid).length := by
    rw [hp, hd]
    simp [setInsert]
  simp only [step]
  rw [if_pos ⟨hs, hhas⟩, if_neg hnot, if_pos hsize]
  exact ⟨⟨_, rfl, rfl, rfl, rfl, rfl, rfl, rfl⟩,
    by simp [countEmits], by simp [countEmits]⟩

theorem step_hostNext_final (env : Env) (now : Int) (r : Room) (hid : ConnId)
    (T : Nat) (hh : r.hostId = hid) (hs : r.state = .showing_answer)
    (hu : r.isUnlimited = false) (ht : r.totalRounds = .fixed T)
    (hreach : T ≤ r.questionIndex + 1) :
    (∃ r2, (step env now r (.hostNext hid)).1 = some r2 ∧
      r2.state = .finished) ∧
    (step env now r (.hostNext hid)).2 =
      [(.room, "gameOver", .obj [("totalRounds", JVal.num (T : Int))])] := by
  simp only [step]
  rw [if_pos ⟨hh, hs⟩,
      if_pos ⟨hu, by rw [ht]; simpa [reachedTarget] using hreach⟩]
  refine ⟨⟨_, rfl, rfl⟩, ?_⟩
  rw [ht]
  rfl

theorem step_hostNext_mid (env : Env) (now : Int) (r : Room) (hid : ConnId)
    (T : Nat) (hh : r.hostId = hid) (hs : r.state = .showing_answer)
    (hu : r.isUnlimited = false) (ht : r.totalRounds = .fixed T)
    (hmid : r.questionIndex + 1 < T) :
    (∃ r2, (step env now r (.hostNext hid)).1 = some r2 ∧
      r2.hostId = r.hostId ∧ r2.players = r.players ∧
      r2.state = .in_question ∧ r2.questionIndex = r.questionIndex + 1 ∧
      r2.done = [] ∧ r2.isUnlimited = r.isUnlimited ∧
      r2.totalRounds = r.totalRounds) ∧
    countEmits (step env now r (.hostNext hid)).2 "questionStarted" = 1 ∧
    countEmits (step env now r (.hostNext hid)).2 "gameOver" = 0 := by
  simp only [step, advanceRound]
  rw [if_pos ⟨hh, hs⟩,
      if_neg (fun hc => by
        rw [ht] at hc
        have h2 := hc.2
        simp [reachedTarget] at h2
        exact absurd h2 (Nat.not_le.mpr hmid)),
      if_neg (fun hc => by rw [hu] at hc; exact Bool.noConfusion hc.1)]
  exact ⟨⟨_, rfl, rfl, rfl, rfl, rfl, rfl, rfl, rfl⟩,
    by simp [countEmits], by simp [countEmits]⟩

def soloRounds (hid pid : ConnId) : Nat → List Event
  | 0 => []
  | n + 1 => Event.playerDone pid none :: Event.hostNext hid :: soloRounds hid pid n

/-- The canonical full run of a solo-player fixed-round room: the host
starts, then each round the single player signals done and the host
advances. -/
def canonicalRun (hid pid : ConnId) (T : Nat) : List Event :=
  Event.startGame hid :: soloRounds hid pid T

theorem soloRounds_spec (env : Env) (now : Int) (hid pid : ConnId) (pl : Player)
    (T : Nat) :
    ∀ (n : Nat) (r : Room), n + r.questionIndex = T → 1 ≤ n →
      r.hostId = hid → r.players = [(pid, pl)] → r.state = .in_question →
      r.done = [] → r.isUnlimited = false → r.totalRounds = .fixed T →
      countEmits (runTrace env now (some r) (soloRounds hid pid n)).2
          "questionStarted" = n - 1 ∧
      countEmits (runTrace env now (some r) (soloRounds hid pid n)).2
          "gameOver" = 1 ∧
      ((.room, "gameOver", .obj [("totalRounds", JVal.num (T : Int))]) : Broadcast) ∈
        (runTrace env now (some r) (soloRounds hid pid n)).2 ∧
      ∃ rf, (runTrace env now (some r) (soloRounds hid pid n)).1 = some rf ∧
        rf.state = .finished := by
  intro n
  induction n with
  | zero =>
    intro r hnk hge
    exact absurd hge (by omega)
  | succ n ih =>
    intro r hnk hge hh hp hs hd hu ht
    obtain ⟨⟨r1, hpd1, hf1, hf2, hf3, hf4, hf5, hf6⟩, hpd2, hpd3⟩ :=
      step_playerDone_solo env now r pid pl hs hp hd
    have hunf : soloRounds hid pid (n + 1) =
        Event.playerDone pid none :: Event.hostNext hid :: soloRounds hid pid n :=
      rfl
    rw [hunf, runTrace_cons, hpd1, runTrace_cons]
    by_cases hn0 : n = 0
    · subst hn0
      obtain ⟨⟨r2, hhn1, hhn2⟩, hhnb⟩ :=
        step_hostNext_final env now r1 hid T (hf1.trans hh) hf3
          (hf5.trans hu) (hf6.trans ht) (by omega)
      rw [hhn1, hhnb,
          show soloRounds hid pid 0 = ([] : List Event) from rfl, runTrace_nil]
      refine ⟨?_, ?_, ?_, ?_⟩
      · rw [countEmits_append, countEmits_append, hpd2]
        simp [countEmits]
      · rw [countEmits_append, countEmits_append, hpd3]
        simp [countEmits]
      · exact List.mem_append_right _
          (List.mem_append_left _ (List.mem_singleton.mpr rfl))
      · exact ⟨r2, rfl, hhn2⟩
    · obtain ⟨⟨r2, hhn1, hg1, hg2, hg3, hg4, hg5, hg6, hg7⟩, hhn2, hhn3⟩ :=
        step_hostNext_mid env now r1 hid T (hf1.trans hh) hf3
          (hf5.trans hu) (hf6.trans ht) (by omega)
      rw [hhn1]
      obtain ⟨ia, ib, ic, ifin⟩ := ih r2 (by omega) (by omega)
        (hg1.trans (hf1.trans hh)) (hg2.trans (hf2.trans hp)) hg3 hg5
        (hg6.trans (hf5.trans hu)) (hg7.trans (hf6.trans ht))
      refine ⟨?_, ?_, ?_, ?_⟩
      · rw [countEmits_append, countEmits_append, hpd2, hhn2, ia]
        omega
      · rw [countEmits_append, countEmits_append, hpd3, hhn3, ib]
      · exact List.mem_append_right _ (List.mem_append_right _ ic)
      · exact ifin

/-- C7: over the canonical full run of a fixed-round room with target `T`,
one player and no disconnects, exactly `T` `questionStarted` broadcasts and
exactly one `gameOver` are emitted, the `gameOver` carries
`totalRounds = T`, and the room ends in the terminal `finished` state. -/
theorem fixed_rounds_run (env : Env) (now : Int) (r : Room) (hid pid : ConnId)
    (pl : Player) (T : Nat) (hT : 1 ≤ T)
    (hh : r.hostId = hid) (hp : r.players = [(pid, pl)])
    (hu : r.isUnlimited = false) (ht : r.totalRounds = .fixed T) :
    countEmits (runTrace env now (some r) (canonicalRun hid pid T)).2
        "questionStarted" = T ∧
    countEmits (runTrace env now (some r) (canonicalRun hid pid T)).2
        "gameOver" = 1 ∧
    ((.room, "gameOver", .obj [("totalRounds", JVal.num (T : Int))]) : Broadcast) ∈
      (runTrace env now (some r) (canonicalRun hid pid T)).2 ∧
    ∃ rf, (runTrace env now (some r) (canonicalRun hid pid T)).1 = some rf ∧
      rf.state = .finished := by
  obtain ⟨⟨r0, hsg1, hs1, hs2, hs3, hs4, hs5, hs6, hs7⟩, hsg2, hsg3⟩ :=
    step_startGame_parts env now r hid hh
  have hunf : canonicalRun hid pid T = Event.startGame hid :: soloRounds hid pid T :=
    rfl
  rw [hunf, runTrace_cons, hsg1]
  obtain ⟨ia, ib, ic, ifin⟩ := soloRounds_spec env now hid pid pl T T r0
    (by omega) hT (hs1.trans hh) (hs2.trans hp) hs3 hs5
    (hs6.trans hu) (hs7.trans ht)
  refine ⟨?_, ?_, ?_, ?_⟩
  · rw [countEmits_append, hsg2, ia]
    omega
  · rw [countEmits_append, hsg3, ib]
  · exact List.mem_append_right _ ic
  · exact ifin

def roomEx2P : Room := { roomEx2 with players := [("p", playerP1)] }

/-- Witness for C7: the concrete two-round room. -/
theorem fixed_rounds_run_witness :
    roomEx2P.totalRounds = TotalRounds.fixed 2 ∧
    countEmits (runTrace envEx2 0 (some roomEx2P) (canonicalRun "h" "p" 2)).2
        "questionStarted" = 2 ∧
    countEmits (runTrace envEx2 0 (some roomEx2P) (canonicalRun "h" "p" 2)).2
        "gameOver" = 1 :=
  ⟨rfl,
    (fixed_rounds_run envEx2 0 roomEx2P "h" "p" playerP1 2 (by decide) rfl rfl
      rfl rfl).1,
    (fixed_rounds_run envEx2 0 roomEx2P "h" "p" playerP1 2 (by decide) rfl rfl
      rfl rfl).2.1⟩

/-- The selection call `hostNext` makes when replenishing: the room's stored
filter params (question type unset) and a batch size of 5.  No exclude set
is passed — `selectQuestions` cannot receive one. -/
def replenishBatch (env : Env) (r : Room) : List Question :=
  (selectQuestions env
    { grade := r.filterParams.grade, subject := r.filterParams.subject,
      chapter := r.filterParams.chapter, questionType := none,
      useAi := r.filterParams.useAi } (some 5)).questions

/-- C8 (amended): an accepted `hostNext` in an unlimited room with at most 2
unconsumed questions requests 5 more via `selectQuestions` with the stored
filter params (passing no exclude set), appends only the results whose ids
are not already in the queue, and — if the cursor is still out of range —
finishes with a `gameOver` carrying the cursor value; otherwise it
broadcasts the next question. -/
theorem hostNext_replenish (env : Env) (now : Int) (r : Room) (c : ConnId)
    (hh : r.hostId = c) (hs : r.state = .showing_answer)
    (hu : r.isUnlimited = true)
    (hlow : r.questions.length - (r.questionIndex + 1) ≤ 2) :
    ∃ r2, (step env now r (.hostNext c)).1 = some r2 ∧
      r2.questions = r.questions ++ (replenishBatch env r).filter
        (fun nq => nq.id ∉ r.questions.map Question.id) ∧
      r2.questionIndex = r.questionIndex + 1 ∧
      (r2.questions.length ≤ r.questionIndex + 1 →
        r2.state = .finished ∧
        (step env now r (.hostNext c)).2 =
          [(.room, "gameOver",
            .obj [("totalRounds", JVal.num ((r.questionIndex + 1 : Nat) : Int))])]) ∧
      (r.questionIndex + 1 < r2.questions.length →
        r2.state = .in_question ∧
        countEmits (step env now r (.hostNext c)).2 "questionStarted" = 1 ∧
        countEmits (step env now r (.hostNext c)).2 "gameOver" = 0) := by
  simp only [step, advanceRound]
  rw [if_pos ⟨hh, hs⟩,
      if_neg (fun hc => by
        have h1 : r.isUnlimited = false := hc.1
        rw [hu] at h1
        exact Bool.noConfusion h1),
      if_pos ⟨(show r.isUnlimited = true from hu),
              (show r.questions.length - (r.questionIndex + 1) ≤ 2 from hlow)⟩]
  by_cases hfull : (r.questions ++ ((replenishBatch env r).filter
      (fun nq => nq.id ∉ r.questions.map Question.id))).length ≤
        r.questionIndex + 1 <;>
    simp only [replenishBatch] at hfull
  · rw [if_pos hfull]
    exact ⟨_, rfl, rfl, rfl, fun _ => ⟨rfl, rfl⟩,
      fun hlt => absurd hfull (Nat.not_le.mpr hlt)⟩
  · rw [if_neg hfull]
    exact ⟨_, rfl, rfl, rfl, fun hle => absurd hle hfull,
      fun _ => ⟨rfl, by simp [countEmits], by simp [countEmits]⟩⟩

/-- Witness for C8 (amended) at the concrete unlimited room. -/
theorem hostNext_replenish_witness :
    roomU.isUnlimited = true ∧
    (∃ r2, (step envEx 0 roomU (.hostNext "h")).1 = some r2 ∧
      r2.questions = roomU.questions ++ (replenishBatch envEx roomU).filter
        (fun nq => nq.id ∉ roomU.questions.map Question.id) ∧
      r2.questionIndex = roomU.questionIndex + 1 ∧
      (r2.questions.length ≤ roomU.questionIndex + 1 →
        r2.state = .finished ∧
        (step envEx 0 roomU (.hostNext "h")).2 =
          [(.room, "gameOver",
            .obj [("totalRounds", JVal.num ((roomU.questionIndex + 1 : Nat) : Int))])]) ∧
      (roomU.questionIndex + 1 < r2.questions.length →
        r2.state = .in_question ∧
        countEmits (step envEx 0 roomU (.hostNext "h")).2 "questionStarted" = 1 ∧
        countEmits (step envEx 0 roomU (.hostNext "h")).2 "gameOver" = 0)) :=
  ⟨rfl, hostNext_replenish envEx 0 roomU "h" rfl rfl rfl (by decide)⟩

/-- C8 counterexample: the replenishment call is made without the existing
question ids as excludes — the batch it returns contains id "B1", which is
already in the queue of `roomU`; only the append-time filter keeps the
queue duplicate-free. -/
theorem replenish_excludes_not_passed :
    "B1" ∈ ((replenishBatch envEx roomU).map Question.id) ∧
    "B1" ∈ (roomU.questions.map Question.id) ∧
    (step envEx 0 roomU (.hostNext "h")).1.map (fun r2 => r2.questions.map Question.id) =
      some ["B1", "F0", "F1", "F2", "F3"] := by
  refine ⟨by decide, by decide, by decide⟩

/-! Non-emptiness of the fallback tier (C10). -/

theorem fallbackGo_extends (fgen : Nat → Question) (count : Nat) :
    ∀ (fuel t : Nat) (out : List Question) (ex : List String),
      ∃ tail, fallbackGo fgen count fuel t out ex = out ++ tail := by
  intro fuel
  induction fuel with
  | zero =>
    intro t out ex
    exact ⟨[], by simp [fallbackGo]⟩
  | succ fuel ih =>
    intro t out ex
    simp only [fallbackGo]
    by_cases hlen : out.length < count
    · rw [if_pos hlen]
      by_cases hmem : (fgen t).id ∈ ex
      · rw [if_pos hmem]
        exact ih (t + 1) out ex
      · rw [if_neg hmem]
        obtain ⟨tail, htail⟩ := ih (t + 1) (out ++ [fgen t]) (ex ++ [(fgen t).id])
        exact ⟨[fgen t] ++ tail, by rw [htail, List.append_assoc]⟩
    · rw [if_neg hlen]
      exact ⟨[], by simp⟩

theorem fallbackGo_stale (fgen : Nat → Question) (count : Nat)
    (hc : 1 ≤ count) :
    ∀ (fuel t : Nat) (out : List Question) (ex : List String),
      fallbackGo fgen count fuel t out ex = [] →
      out = [] ∧ ∀ i, i < fuel → (fgen (t + i)).id ∈ ex := by
  intro fuel
  induction fuel with
  | zero =>
    intro t out ex h
    simp only [fallbackGo] at h
    exact ⟨h, fun i hi => absurd hi (by omega)⟩
  | succ fuel ih =>
    intro t out ex h
    simp only [fallbackGo] at h
    by_cases hlen : out.length < count
    · rw [if_pos hlen] at h
      by_cases hmem : (fgen t).id ∈ ex
      · rw [if_pos hmem] at h
        obtain ⟨ho, hall⟩ := ih (t + 1) out ex h
        refine ⟨ho, fun i hi => ?_⟩
        cases i with
        | zero => simpa using hmem
        | succ i =>
          have h2 := hall i (by omega)
          have h3 : t + (i + 1) = t + 1 + i := by omega
          rw [h3]
          exact h2
      · rw [if_neg hmem] at h
        obtain ⟨tail, htail⟩ :=
          fallbackGo_extends fgen count fuel (t + 1) (out ++ [fgen t])
            (ex ++ [(fgen t).id])
        rw [htail] at h
        simp at h
    · rw [if_neg hlen] at h
      have hcon : out.length < count := by
        rw [h]
        simpa using hc
      exact absurd hcon hlen

/-- If at least one attempt of the budget generates an id outside the
exclude set, the fallback tier returns at least one question. -/
theorem fallback_nonempty (fgen : Nat → Question) (count : Nat)
    (ex : List String)
    (hfresh : ∃ t, t < count * 12 ∧ (fgen t).id ∉ ex) :
    generateQuestionsFallback fgen count ex ≠ [] := by
  intro hempty
  obtain ⟨t, ht, hfr⟩ := hfresh
  have hc : 1 ≤ count := by omega
  obtain ⟨_, hall⟩ :=
    fallbackGo_stale fgen count hc (count * 12) 0 [] ex hempty
  exact hfr (by simpa using hall t ht)

theorem one_le_requestedRounds (roundsArg : Option Int) :
    1 ≤ requestedRounds roundsArg := by
  unfold requestedRounds
  have h : (1 : Int) ≤ max 1 (match roundsArg with
    | none => 5
    | some r => if r = 0 then 5 else r) := le_max_left _ _
  omega

theorem selectQuestions_nonempty (env : Env) (p : SelectParams)
    (roundsArg : Option Int)
    (h : requestedRounds roundsArg ≤ (selectStage2 env p roundsArg).1.length ∨
      ∃ t, t < (requestedRounds roundsArg -
          (selectStage2 env p roundsArg).1.length) * 12 ∧
        (env.fgen t).id ∉ (selectStage2 env p roundsArg).2) :
    (selectQuestions env p roundsArg).questions ≠ [] := by
  simp only [selectQuestions]
  split
  next hlen =>
    rcases h with h | h
    · exact absurd hlen (by omega)
    · intro hempty
      have h1 := List.append_eq_nil.mp hempty
      exact fallback_nonempty env.fgen _ _ h h1.2
  next hlen =>
    intro hempty
    have h1 := one_le_requestedRounds roundsArg
    rw [hempty] at hlen
    simp at hlen
    omega

/-- C10: with AI disabled, whenever the fallback tier's per-call attempt
budget (`count × 12`) yields at least one id outside its exclude set (or
the bank already covered the request), `selectQuestions` returns a
non-empty list, so `createRoom`'s "No questions found for selected
filters." branch is unreachable: the room is created and `roomCreated`
emitted. -/
theorem createRoom_error_unreachable (env : Env) (roomId : String)
    (hostConn : ConnId) (hostName : Option String) (trArg grade : Option Int)
    (subject chapter : Option String) (playAsHost : Bool)
    (h : requestedRounds (some (createRequested trArg)) ≤
        (selectStage2 env
          { grade := grade, subject := subject, chapter := chapter,
            questionType := none, useAi := false }
          (some (createRequested trArg))).1.length ∨
      ∃ t, t < (requestedRounds (some (createRequested trArg)) -
          (selectStage2 env
            { grade := grade, subject := subject, chapter := chapter,
              questionType := none, useAi := false }
            (some (createRequested trArg))).1.length) * 12 ∧
        (env.fgen t).id ∉ (selectStage2 env
          { grade := grade, subject := subject, chapter := chapter,
            questionType := none, useAi := false }
          (some (createRequested trArg))).2) :
    (createRoom env roomId hostConn hostName trArg grade subject chapter
      false playAsHost).1 ≠ none ∧
    emitsB (createRoom env roomId hostConn hostName trArg grade subject chapter
      false playAsHost).2 "roomCreated" = true ∧
    emitsB (createRoom env roomId hostConn hostName trArg grade subject chapter
      false playAsHost).2 "errorMessage" = false := by
  have hne := selectQuestions_nonempty env
    { grade := grade, subject := subject, chapter := chapter,
      questionType := none, useAi := false } (some (createRequested trArg)) h
  simp only [createRoom]
  rw [if_neg (fun h0 => hne (List.length_eq_zero.mp h0))]
  exact ⟨fun hc => Option.noConfusion hc, by simp [emitsB], by simp [emitsB]⟩

/-- Witness for C10: requesting 3 questions from a bank holding one, with
a fresh generated id available at the first attempt. -/
theorem createRoom_error_unreachable_witness :
    0 < (requestedRounds (some (createRequested (some 3))) -
      (selectStage2 envEx
        { grade := none, subject := none, chapter := none,
          questionType := none, useAi := false }
        (some (createRequested (some 3)))).1.length) * 12 ∧
    (envEx.fgen 0).id ∉ (selectStage2 envEx
      { grade := none, subject := none, chapter := none,
        questionType := none, useAi := false }
      (some (createRequested (some 3)))).2 ∧
    (createRoom envEx "R" "h" none (some 3) none none none false false).1 ≠ none :=
  ⟨by decide, by decide,
    (createRoom_error_unreachable envEx "R" "h" none (some 3) none none none
      false (Or.inr ⟨0, by decide, by decide⟩)).1⟩

end NcertQuiz
